import Mathlib

/-!
ERP-OFDM PHY (IEEE 802.11-2016, clause 18).

A shallow embedding of `src/wifi/model/erp-ofdm-phy.cc` and the properties of
its mode catalogue, rate look-ups and mode initialisation.

Machine integers (`uint64_t`, `uint16_t`, `uint8_t`) are embedded as `Nat`;
every statement below that quantifies over such a value holds for all
naturals, hence for every value of the machine type.  Operations that can
terminate the program (`std::map::at` on a missing key, `NS_ABORT_MSG`,
`NS_ASSERT`) return `Except PhyError`.
-/

namespace ns3

/-! ## Types declared outside `erp-ofdm-phy.cc` -/

/-- Modelled from the spec: the enumeration `WifiCodeRate` is declared outside
`erp-ofdm-phy.cc`.  Spec section 3 gives the coding rate as an enumerated
ratio, 1/2, 2/3 or 3/4; these are the three enumerators the lookup table and
the mode accessors name. -/
inductive WifiCodeRate where
  | WIFI_CODE_RATE_3_4
  | WIFI_CODE_RATE_2_3
  | WIFI_CODE_RATE_1_2
  deriving DecidableEq, Repr

/-- Modelled from the spec: the enumeration `WifiModulationClass` is declared
outside `erp-ofdm-phy.cc`.  Spec section 3 gives it as the tag of the PHY
family a mode belongs to.  The file creates and tests for
`WIFI_MOD_CLASS_ERP_OFDM` only; the other tags stand for the sibling families,
among them the more general OFDM family. -/
inductive WifiModulationClass where
  | WIFI_MOD_CLASS_UNKNOWN
  | WIFI_MOD_CLASS_DSSS
  | WIFI_MOD_CLASS_HR_DSSS
  | WIFI_MOD_CLASS_ERP_OFDM
  | WIFI_MOD_CLASS_OFDM
  | WIFI_MOD_CLASS_HT
  | WIFI_MOD_CLASS_VHT
  | WIFI_MOD_CLASS_HE
  deriving DecidableEq, Repr

/-- The ways in which an operation of this file stops instead of returning.
`outOfRange` is the exception of `std::map::at` on a missing key,
`abortMsg` is `NS_ABORT_MSG`, `assertFailed` is a failed `NS_ASSERT`. -/
inductive PhyError where
  | outOfRange
  | abortMsg
  | assertFailed
  deriving DecidableEq, Repr

/-- Equality of results is decidable when it is for errors and values. -/
instance instDecidableEqExcept {ε α : Type} [DecidableEq ε] [DecidableEq α] :
    DecidableEq (Except ε α)
  | .ok a, .ok b => if h : a = b then isTrue (by rw [h]) else isFalse (fun e => h (by cases e; rfl))
  | .error a, .error b =>
      if h : a = b then isTrue (by rw [h]) else isFalse (fun e => h (by cases e; rfl))
  | .ok _, .error _ => isFalse (fun e => by cases e)
  | .error _, .ok _ => isFalse (fun e => by cases e)

/-- Modelled from the spec: the class `WifiMode` is declared outside
`erp-ofdm-phy.cc`.  Spec section 3 gives a mode as an immutable value
identified by its unique name, with a modulation class, a coding rate, a
constellation size and a mandatory flag; these are the five attributes the
accessors of this file pass to the mode factory. -/
structure WifiMode where
  uniqueName : String
  modClass : WifiModulationClass
  isMandatory : Bool
  codeRate : WifiCodeRate
  constellationSize : Nat
  deriving DecidableEq, Repr

namespace WifiMode

/-- Getter `WifiMode::GetUniqueName`. -/
def GetUniqueName (m : WifiMode) : String := m.uniqueName

/-- Getter `WifiMode::GetModulationClass`. -/
def GetModulationClass (m : WifiMode) : WifiModulationClass := m.modClass

end WifiMode

/-- Member `at` of `std::map`, the map given by its entries: the value stored
under `key`, or the out-of-range exception when no entry has that key. -/
def std.map.at {κ ν : Type} [BEq κ] (table : List (κ × ν)) (key : κ) : Except PhyError ν :=
  match table.lookup key with
  | some value => .ok value
  | none => .error PhyError.outOfRange

/-- Modelled from the spec: the class `WifiTxVector` is declared outside
`erp-ofdm-phy.cc`.  Spec section 3 gives it as the bundle of selected mode,
channel width, guard interval and number of spatial streams; these are the
four values this file reads from it. -/
structure WifiTxVector where
  m_mode : WifiMode
  m_channelWidth : Nat
  m_guardInterval : Nat
  m_nss : Nat
  deriving DecidableEq, Repr

namespace WifiTxVector

/-- Getter `WifiTxVector::GetMode`. -/
def GetMode (txVector : WifiTxVector) : WifiMode := txVector.m_mode

/-- Getter `WifiTxVector::GetChannelWidth`. -/
def GetChannelWidth (txVector : WifiTxVector) : Nat := txVector.m_channelWidth

/-- Getter `WifiTxVector::GetGuardInterval`. -/
def GetGuardInterval (txVector : WifiTxVector) : Nat := txVector.m_guardInterval

/-- Getter `WifiTxVector::GetNss`. -/
def GetNss (txVector : WifiTxVector) : Nat := txVector.m_nss

end WifiTxVector

/-- Modelled from the spec: the class `Time` is declared outside
`erp-ofdm-phy.cc`.  The two durations of this file are whole numbers of
microseconds, and a time is held as that number. -/
structure Time where
  microSeconds : Nat
  deriving DecidableEq, Repr

/-- Modelled from the spec: `MicroSeconds (value)`, declared outside
`erp-ofdm-phy.cc`, is the time of `value` microseconds. -/
def MicroSeconds (value : Nat) : Time := { microSeconds := value }

namespace WifiModeFactory

/-- Modelled from the spec: `WifiModeFactory::CreateWifiMode` is defined outside
`erp-ofdm-phy.cc`.  Spec section 6 gives it as
`createMode(name, class, mandatory, codeRate, constellationSize) -> Mode`, and
section 3 describes a mode as an immutable value carrying exactly these
attributes; the result is the mode holding the five arguments. -/
def CreateWifiMode (uniqueName : String) (modClass : WifiModulationClass)
    (isMandatory : Bool) (codingRate : WifiCodeRate) (constellationSize : Nat) : WifiMode :=
  { uniqueName := uniqueName, modClass := modClass, isMandatory := isMandatory,
    codeRate := codingRate, constellationSize := constellationSize }

end WifiModeFactory

namespace ErpOfdmPhy

open WifiCodeRate WifiModulationClass

/-! ## The modulation lookup table -/

/-- The table `ErpOfdmPhy::m_erpOfdmModulationLookupTable`, its entries in
the order of the initialiser list: unique name, code rate, constellation size. -/
def m_erpOfdmModulationLookupTable : List (String × (WifiCodeRate × Nat)) :=
  [ ("ErpOfdmRate6Mbps",  (WIFI_CODE_RATE_1_2, 2)),
    ("ErpOfdmRate9Mbps",  (WIFI_CODE_RATE_3_4, 2)),
    ("ErpOfdmRate12Mbps", (WIFI_CODE_RATE_1_2, 4)),
    ("ErpOfdmRate18Mbps", (WIFI_CODE_RATE_3_4, 4)),
    ("ErpOfdmRate24Mbps", (WIFI_CODE_RATE_1_2, 16)),
    ("ErpOfdmRate36Mbps", (WIFI_CODE_RATE_3_4, 16)),
    ("ErpOfdmRate48Mbps", (WIFI_CODE_RATE_2_3, 64)),
    ("ErpOfdmRate54Mbps", (WIFI_CODE_RATE_3_4, 64)) ]

/-- `ErpOfdmPhy::GetCodeRate`: the first component of the entry found by `at`. -/
def GetCodeRate (name : String) : Except PhyError WifiCodeRate :=
  (std.map.at m_erpOfdmModulationLookupTable name).map (fun e => e.1)

/-- `ErpOfdmPhy::GetConstellationSize`: the second component of the entry found by `at`. -/
def GetConstellationSize (name : String) : Except PhyError Nat :=
  (std.map.at m_erpOfdmModulationLookupTable name).map (fun e => e.2)

/-! ## Mode accessors -/

/-- `ErpOfdmPhy::GetErpOfdmRate6Mbps`: the value of its static `mode`. -/
def GetErpOfdmRate6Mbps : WifiMode :=
  WifiModeFactory.CreateWifiMode "ErpOfdmRate6Mbps" WIFI_MOD_CLASS_ERP_OFDM true WIFI_CODE_RATE_1_2 2

/-- `ErpOfdmPhy::GetErpOfdmRate9Mbps`: the value of its static `mode`. -/
def GetErpOfdmRate9Mbps : WifiMode :=
  WifiModeFactory.CreateWifiMode "ErpOfdmRate9Mbps" WIFI_MOD_CLASS_ERP_OFDM false WIFI_CODE_RATE_3_4 2

/-- `ErpOfdmPhy::GetErpOfdmRate12Mbps`: the value of its static `mode`. -/
def GetErpOfdmRate12Mbps : WifiMode :=
  WifiModeFactory.CreateWifiMode "ErpOfdmRate12Mbps" WIFI_MOD_CLASS_ERP_OFDM true WIFI_CODE_RATE_1_2 4

/-- `ErpOfdmPhy::GetErpOfdmRate18Mbps`: the value of its static `mode`. -/
def GetErpOfdmRate18Mbps : WifiMode :=
  WifiModeFactory.CreateWifiMode "ErpOfdmRate18Mbps" WIFI_MOD_CLASS_ERP_OFDM false WIFI_CODE_RATE_3_4 4

/-- `ErpOfdmPhy::GetErpOfdmRate24Mbps`: the value of its static `mode`. -/
def GetErpOfdmRate24Mbps : WifiMode :=
  WifiModeFactory.CreateWifiMode "ErpOfdmRate24Mbps" WIFI_MOD_CLASS_ERP_OFDM true WIFI_CODE_RATE_1_2 16

/-- `ErpOfdmPhy::GetErpOfdmRate36Mbps`: the value of its static `mode`. -/
def GetErpOfdmRate36Mbps : WifiMode :=
  WifiModeFactory.CreateWifiMode "ErpOfdmRate36Mbps" WIFI_MOD_CLASS_ERP_OFDM false WIFI_CODE_RATE_3_4 16

/-- `ErpOfdmPhy::GetErpOfdmRate48Mbps`: the value of its static `mode`. -/
def GetErpOfdmRate48Mbps : WifiMode :=
  WifiModeFactory.CreateWifiMode "ErpOfdmRate48Mbps" WIFI_MOD_CLASS_ERP_OFDM false WIFI_CODE_RATE_2_3 64

/-- `ErpOfdmPhy::GetErpOfdmRate54Mbps`: the value of its static `mode`. -/
def GetErpOfdmRate54Mbps : WifiMode :=
  WifiModeFactory.CreateWifiMode "ErpOfdmRate54Mbps" WIFI_MOD_CLASS_ERP_OFDM false WIFI_CODE_RATE_3_4 64

/-- `ErpOfdmPhy::GetErpOfdmRate`: the switch over the bit rate, whose default
branch is `NS_ABORT_MSG`. -/
def GetErpOfdmRate (rate : Nat) : Except PhyError WifiMode :=
  match rate with
  | 6000000 => .ok GetErpOfdmRate6Mbps
  | 9000000 => .ok GetErpOfdmRate9Mbps
  | 12000000 => .ok GetErpOfdmRate12Mbps
  | 18000000 => .ok GetErpOfdmRate18Mbps
  | 24000000 => .ok GetErpOfdmRate24Mbps
  | 36000000 => .ok GetErpOfdmRate36Mbps
  | 48000000 => .ok GetErpOfdmRate48Mbps
  | 54000000 => .ok GetErpOfdmRate54Mbps
  | _ => .error PhyError.abortMsg

/-- `ErpOfdmPhy::GetHeaderMode`, with `NS_ASSERT` enabled: the assertion on the
modulation class of the mode of `txVector`, then the 6 Mbps mode. -/
def GetHeaderMode (txVector : WifiTxVector) : Except PhyError WifiMode :=
  if txVector.GetMode.GetModulationClass = WIFI_MOD_CLASS_ERP_OFDM then
    .ok GetErpOfdmRate6Mbps
  else
    .error PhyError.assertFailed

/-- `ErpOfdmPhy::GetPreambleDuration` (L-STF + L-LTF); the argument is unused. -/
def GetPreambleDuration (_txVector : WifiTxVector) : Time :=
  MicroSeconds 16

/-- `ErpOfdmPhy::GetHeaderDuration` (L-SIG); the argument is unused. -/
def GetHeaderDuration (_txVector : WifiTxVector) : Time :=
  MicroSeconds 4

/-- `ErpOfdmPhy::GetErpOfdmRatesBpsList`: the entry for 20 MHz of the map
returned by `OfdmPhy::GetOfdmRatesBpsList`.  That map belongs to the base
class and is passed in as `ofdmRatesBpsList`. -/
def GetErpOfdmRatesBpsList (ofdmRatesBpsList : List (Nat × List Nat)) :
    Except PhyError (List Nat) :=
  std.map.at ofdmRatesBpsList 20

/-! ## Rates

`OfdmPhy::CalculateDataRate` and `OfdmPhy::CalculatePhyRate` belong to the base
class.  `GetDataRate` and `GetPhyRate` take them as arguments. -/

/-- `ErpOfdmPhy::GetDataRate`: both table look-ups, then the data-rate formula
`CalculateDataRate` of the base class. -/
def GetDataRate (CalculateDataRate : WifiCodeRate → Nat → Nat → Nat → Nat → Nat)
    (name : String) (channelWidth guardInterval nss : Nat) : Except PhyError Nat := do
  let codeRate ← GetCodeRate name
  let constellationSize ← GetConstellationSize name
  pure (CalculateDataRate codeRate constellationSize channelWidth guardInterval nss)

/-- `ErpOfdmPhy::GetPhyRate`: both table look-ups, the data-rate formula, then
the gross-rate formula `CalculatePhyRate` of the base class. -/
def GetPhyRate (CalculateDataRate : WifiCodeRate → Nat → Nat → Nat → Nat → Nat)
    (CalculatePhyRate : WifiCodeRate → Nat → Nat)
    (name : String) (channelWidth guardInterval nss : Nat) : Except PhyError Nat := do
  let codeRate ← GetCodeRate name
  let constellationSize ← GetConstellationSize name
  let dataRate := CalculateDataRate codeRate constellationSize channelWidth guardInterval nss
  pure (CalculatePhyRate codeRate dataRate)

/-- `ErpOfdmPhy::GetDataRateFromTxVector`; the station identifier is unused. -/
def GetDataRateFromTxVector (CalculateDataRate : WifiCodeRate → Nat → Nat → Nat → Nat → Nat)
    (txVector : WifiTxVector) (_staId : Nat) : Except PhyError Nat :=
  GetDataRate CalculateDataRate txVector.GetMode.GetUniqueName txVector.GetChannelWidth
    txVector.GetGuardInterval txVector.GetNss

/-- `ErpOfdmPhy::IsModeAllowed`; both arguments are unused. -/
def IsModeAllowed (_channelWidth _nss : Nat) : Bool :=
  true

end ErpOfdmPhy

/-! ## The shared OFDM data-rate formula -/

namespace OfdmPhy

open WifiCodeRate

/-- Modelled from the spec: `OfdmPhy::GetCodeRatio` is defined outside
`erp-ofdm-phy.cc`.  The glossary gives the coding rate as the ratio of
information bits to transmitted bits; the ratio is held as numerator and
denominator. -/
def GetCodeRatio : WifiCodeRate → Nat × Nat
  | WIFI_CODE_RATE_3_4 => (3, 4)
  | WIFI_CODE_RATE_2_3 => (2, 3)
  | WIFI_CODE_RATE_1_2 => (1, 2)

/-- Modelled from the spec: `OfdmPhy::CalculateDataRate` is defined outside
`erp-ofdm-phy.cc`.  The data rate is the OFDM one: symbols per second, times
48 data subcarriers, times the bits per subcarrier `log2 (constellationSize)`,
times the coding ratio, in exact arithmetic and rounded up to whole bits per
second.  The number of symbols per second for a channel width, guard interval
and stream count is the argument `symbolRate`; at 20 MHz one symbol lasts
4 microseconds, which is 250000 symbols per second. -/
def CalculateDataRate (symbolRate : Nat → Nat → Nat → Nat) (codeRate : WifiCodeRate)
    (constellationSize channelWidth guardInterval nss : Nat) : Nat :=
  let numberOfBitsPerSubcarrier := Nat.log2 constellationSize
  let ratio := GetCodeRatio codeRate
  (symbolRate channelWidth guardInterval nss * 48 * numberOfBitsPerSubcarrier * ratio.1
      + (ratio.2 - 1)) / ratio.2

end OfdmPhy

/-! ## Initialisation of the modes

Each accessor holds its mode in a function-local `static`, which is
initialised by the first call of the accessor and only read by later calls.
The state below has one slot per accessor and the record of the calls of
`WifiModeFactory::CreateWifiMode` made by the initialisers. -/

/-- The process-wide state behind the mode accessors: the modes requested
from `WifiModeFactory::CreateWifiMode` so far, one entry per call in call
order, and for each accessor its static `mode`, `none` until initialised. -/
structure ModeRegistry where
  createdModes : List WifiMode
  erpOfdmRate6Mbps : Option WifiMode
  erpOfdmRate9Mbps : Option WifiMode
  erpOfdmRate12Mbps : Option WifiMode
  erpOfdmRate18Mbps : Option WifiMode
  erpOfdmRate24Mbps : Option WifiMode
  erpOfdmRate36Mbps : Option WifiMode
  erpOfdmRate48Mbps : Option WifiMode
  erpOfdmRate54Mbps : Option WifiMode
  deriving DecidableEq, Repr

namespace ModeRegistry

open WifiCodeRate WifiModulationClass

/-- The state at process start: no call made, no static initialised. -/
def initial : ModeRegistry :=
  { createdModes := [],
    erpOfdmRate6Mbps := none,
    erpOfdmRate9Mbps := none,
    erpOfdmRate12Mbps := none,
    erpOfdmRate18Mbps := none,
    erpOfdmRate24Mbps := none,
    erpOfdmRate36Mbps := none,
    erpOfdmRate48Mbps := none,
    erpOfdmRate54Mbps := none }

/-- A call of `WifiModeFactory::CreateWifiMode`: the mode is created and the
call is recorded. -/
def CreateWifiMode (g : ModeRegistry) (uniqueName : String) (modClass : WifiModulationClass)
    (isMandatory : Bool) (codingRate : WifiCodeRate) (constellationSize : Nat) :
    WifiMode × ModeRegistry :=
  let mode := WifiModeFactory.CreateWifiMode uniqueName modClass isMandatory codingRate
    constellationSize
  (mode, { g with createdModes := g.createdModes ++ [mode] })

/-- `ErpOfdmPhy::GetErpOfdmRate6Mbps` as a step on the state: the static is
initialised on the first call and returned as it is afterwards. -/
def GetErpOfdmRate6Mbps (g : ModeRegistry) : WifiMode × ModeRegistry :=
  match g.erpOfdmRate6Mbps with
  | some mode => (mode, g)
  | none =>
    let created := g.CreateWifiMode "ErpOfdmRate6Mbps" WIFI_MOD_CLASS_ERP_OFDM true
      WIFI_CODE_RATE_1_2 2
    (created.1, { created.2 with erpOfdmRate6Mbps := some created.1 })

/-- `ErpOfdmPhy::GetErpOfdmRate9Mbps` as a step on the state: the static is
initialised on the first call and returned as it is afterwards. -/
def GetErpOfdmRate9Mbps (g : ModeRegistry) : WifiMode × ModeRegistry :=
  match g.erpOfdmRate9Mbps with
  | some mode => (mode, g)
  | none =>
    let created := g.CreateWifiMode "ErpOfdmRate9Mbps" WIFI_MOD_CLASS_ERP_OFDM false
      WIFI_CODE_RATE_3_4 2
    (created.1, { created.2 with erpOfdmRate9Mbps := some created.1 })

/-- `ErpOfdmPhy::GetErpOfdmRate12Mbps` as a step on the state: the static is
initialised on the first call and returned as it is afterwards. -/
def GetErpOfdmRate12Mbps (g : ModeRegistry) : WifiMode × ModeRegistry :=
  match g.erpOfdmRate12Mbps with
  | some mode => (mode, g)
  | none =>
    let created := g.CreateWifiMode "ErpOfdmRate12Mbps" WIFI_MOD_CLASS_ERP_OFDM true
      WIFI_CODE_RATE_1_2 4
    (created.1, { created.2 with erpOfdmRate12Mbps := some created.1 })

/-- `ErpOfdmPhy::GetErpOfdmRate18Mbps` as a step on the state: the static is
initialised on the first call and returned as it is afterwards. -/
def GetErpOfdmRate18Mbps (g : ModeRegistry) : WifiMode × ModeRegistry :=
  match g.erpOfdmRate18Mbps with
  | some mode => (mode, g)
  | none =>
    let created := g.CreateWifiMode "ErpOfdmRate18Mbps" WIFI_MOD_CLASS_ERP_OFDM false
      WIFI_CODE_RATE_3_4 4
    (created.1, { created.2 with erpOfdmRate18Mbps := some created.1 })

/-- `ErpOfdmPhy::GetErpOfdmRate24Mbps` as a step on the state: the static is
initialised on the first call and returned as it is afterwards. -/
def GetErpOfdmRate24Mbps (g : ModeRegistry) : WifiMode × ModeRegistry :=
  match g.erpOfdmRate24Mbps with
  | some mode => (mode, g)
  | none =>
    let created := g.CreateWifiMode "ErpOfdmRate24Mbps" WIFI_MOD_CLASS_ERP_OFDM true
      WIFI_CODE_RATE_1_2 16
    (created.1, { created.2 with erpOfdmRate24Mbps := some created.1 })

/-- `ErpOfdmPhy::GetErpOfdmRate36Mbps` as a step on the state: the static is
initialised on the first call and returned as it is afterwards. -/
def GetErpOfdmRate36Mbps (g : ModeRegistry) : WifiMode × ModeRegistry :=
  match g.erpOfdmRate36Mbps with
  | some mode => (mode, g)
  | none =>
    let created := g.CreateWifiMode "ErpOfdmRate36Mbps" WIFI_MOD_CLASS_ERP_OFDM false
      WIFI_CODE_RATE_3_4 16
    (created.1, { created.2 with erpOfdmRate36Mbps := some created.1 })

/-- `ErpOfdmPhy::GetErpOfdmRate48Mbps` as a step on the state: the static is
initialised on the first call and returned as it is afterwards. -/
def GetErpOfdmRate48Mbps (g : ModeRegistry) : WifiMode × ModeRegistry :=
  match g.erpOfdmRate48Mbps with
  | some mode => (mode, g)
  | none =>
    let created := g.CreateWifiMode "ErpOfdmRate48Mbps" WIFI_MOD_CLASS_ERP_OFDM false
      WIFI_CODE_RATE_2_3 64
    (created.1, { created.2 with erpOfdmRate48Mbps := some created.1 })

/-- `ErpOfdmPhy::GetErpOfdmRate54Mbps` as a step on the state: the static is
initialised on the first call and returned as it is afterwards. -/
def GetErpOfdmRate54Mbps (g : ModeRegistry) : WifiMode × ModeRegistry :=
  match g.erpOfdmRate54Mbps with
  | some mode => (mode, g)
  | none =>
    let created := g.CreateWifiMode "ErpOfdmRate54Mbps" WIFI_MOD_CLASS_ERP_OFDM false
      WIFI_CODE_RATE_3_4 64
    (created.1, { created.2 with erpOfdmRate54Mbps := some created.1 })

/-- `ErpOfdmPhy::GetErpOfdmRate` as a step on the state. -/
def GetErpOfdmRate (rate : Nat) (g : ModeRegistry) : Except PhyError (WifiMode × ModeRegistry) :=
  match rate with
  | 6000000 => .ok g.GetErpOfdmRate6Mbps
  | 9000000 => .ok g.GetErpOfdmRate9Mbps
  | 12000000 => .ok g.GetErpOfdmRate12Mbps
  | 18000000 => .ok g.GetErpOfdmRate18Mbps
  | 24000000 => .ok g.GetErpOfdmRate24Mbps
  | 36000000 => .ok g.GetErpOfdmRate36Mbps
  | 48000000 => .ok g.GetErpOfdmRate48Mbps
  | 54000000 => .ok g.GetErpOfdmRate54Mbps
  | _ => .error PhyError.abortMsg

/-- `ErpOfdmPhy::InitializeModes`: the loop over the rate list, calling
`GetErpOfdmRate` on each rate and dropping the mode it returns. -/
def InitializeModes (ofdmRatesBpsList : List (Nat × List Nat)) (g : ModeRegistry) :
    Except PhyError ModeRegistry := do
  let rates ← ErpOfdmPhy.GetErpOfdmRatesBpsList ofdmRatesBpsList
  rates.foldlM (fun state rate => (GetErpOfdmRate rate state).map (fun r => r.2)) g

/-- The static read by `GetErpOfdmRate rate`, for the statement of the
properties of the initialisation: the slot of the accessor the switch selects,
and `none` for a rate of the default branch. -/
def staticOf (rate : Nat) (g : ModeRegistry) : Option WifiMode :=
  match rate with
  | 6000000 => g.erpOfdmRate6Mbps
  | 9000000 => g.erpOfdmRate9Mbps
  | 12000000 => g.erpOfdmRate12Mbps
  | 18000000 => g.erpOfdmRate18Mbps
  | 24000000 => g.erpOfdmRate24Mbps
  | 36000000 => g.erpOfdmRate36Mbps
  | 48000000 => g.erpOfdmRate48Mbps
  | 54000000 => g.erpOfdmRate54Mbps
  | _ => none

end ModeRegistry

/-! ## Construction and transmission units -/

/-- Modelled from the spec: the enumeration `WifiPhyBand` is declared outside
`erp-ofdm-phy.cc`.  Spec section 3 names it as the PHY band a transmission
unit is stamped with; the file only passes the band of the owning device on. -/
inductive WifiPhyBand where
  | WIFI_PHY_BAND_2_4GHZ
  | WIFI_PHY_BAND_5GHZ
  | WIFI_PHY_BAND_6GHZ
  | WIFI_PHY_BAND_UNSPECIFIED
  deriving DecidableEq, Repr

/-- Modelled from the spec: the class `WifiPhy` is declared outside
`erp-ofdm-phy.cc`.  It is the owning device, of which this file reads the
PHY band. -/
structure WifiPhy where
  m_band : WifiPhyBand
  deriving DecidableEq, Repr

/-- Getter `WifiPhy::GetPhyBand`. -/
def WifiPhy.GetPhyBand (phy : WifiPhy) : WifiPhyBand := phy.m_band

/-- Modelled from the spec: the class `ErpOfdmPpdu` is declared outside
`erp-ofdm-phy.cc`.  Spec section 3 gives a transmission unit as the bundle of
the addressed frame, the transmission vector used, the PHY band and a unique
transmission identifier; these are the four arguments `BuildPpdu` creates it
with.  The frame type `Psdu` is not inspected by this file. -/
structure ErpOfdmPpdu (Psdu : Type) where
  psdu : Psdu
  txVector : WifiTxVector
  band : WifiPhyBand
  uid : Nat
  deriving DecidableEq, Repr

/-- The state `BuildPpdu` acts on: the owning device `m_wifiPhy` and the mode
list `m_modeList` of the PHY entity, and the static counter
`m_globalPpduUid` of transmission identifiers. -/
structure PhyEntity where
  m_wifiPhy : WifiPhy
  m_modeList : List WifiMode
  m_globalPpduUid : Nat
  deriving DecidableEq, Repr

/-- Modelled from the spec: `PhyEntity::ObtainNextUid` is defined outside
`erp-ofdm-phy.cc`.  Spec sections 4.2 and 5 give it as taking one identifier
from the global identifier sequence, a counter under monotonic increment: the
current value is returned and the counter advances by one.  The counter is a
natural number, as in the spec, which gives it no width. -/
def PhyEntity.ObtainNextUid (self : PhyEntity) (_txVector : WifiTxVector) : Nat × PhyEntity :=
  (self.m_globalPpduUid, { self with m_globalPpduUid := self.m_globalPpduUid + 1 })

set_option linter.dupNamespace false

namespace OfdmPhy

/-- Modelled from the spec: the constructor `OfdmPhy::OfdmPhy (variant,
buildModeList)` is defined outside `erp-ofdm-phy.cc`.  Spec section 4.2 says
the second argument opts out of the auto-population of the mode list with the
modes of the OFDM family; `ofdmModeList` stands for the modes the base class
adds when asked to.  The result is the mode list after the base constructor. -/
def OfdmPhy (ofdmModeList : List WifiMode) (buildModeList : Bool) : List WifiMode :=
  if buildModeList then ofdmModeList else []

end OfdmPhy

namespace ErpOfdmPhy

/-- The constructor `ErpOfdmPhy::ErpOfdmPhy`: the base constructor without the
OFDM modes, then the loop over the rate list which appends the mode of each
rate.  The result is the member `m_modeList` of the constructed object. -/
def ErpOfdmPhy (ofdmRatesBpsList : List (Nat × List Nat)) (ofdmModeList : List WifiMode) :
    Except PhyError (List WifiMode) := do
  let m_modeList := OfdmPhy.OfdmPhy ofdmModeList false
  let rates ← GetErpOfdmRatesBpsList ofdmRatesBpsList
  rates.foldlM (fun modeList rate => do
    let mode ← GetErpOfdmRate rate
    pure (modeList ++ [mode])) m_modeList

/-- `ErpOfdmPhy::BuildPpdu`.  The map `psdus` (`WifiConstPsduMap`, declared
outside this file) is given by its entries in the order in which it iterates,
so that `psdus.begin ()` is the first entry of the list; that order is fixed
by the container and is not assumed to follow the keys.  On an empty map
`begin ()` has no entry to point to and there is no result.  The duration
argument is unused. -/
def BuildPpdu {Psdu : Type} (self : PhyEntity) (psdus : List (Nat × Psdu))
    (txVector : WifiTxVector) (_ppduDuration : Time) : Option (ErpOfdmPpdu Psdu × PhyEntity) :=
  match psdus with
  | [] => none
  | first :: _ =>
    let next := self.ObtainNextUid txVector
    some ({ psdu := first.2, txVector := txVector, band := self.m_wifiPhy.GetPhyBand,
            uid := next.1 }, next.2)

/-- The lookup table read in the order of the given rates, for the statement
of the properties of the table: for each rate, the entry stored under the
name of the mode `GetErpOfdmRate` gives for it.  A rate without a mode, or a
mode without an entry, contributes nothing. -/
def tableByRate (rates : List Nat) : List (WifiCodeRate × Nat) :=
  rates.filterMap (fun rate =>
    match GetErpOfdmRate rate with
    | .ok mode => (std.map.at m_erpOfdmModulationLookupTable mode.GetUniqueName).toOption
    | .error _ => none)

end ErpOfdmPhy

/-! ## Properties of the mode catalogue -/

namespace ErpOfdmPhy

open WifiCodeRate WifiModulationClass

/-- The modes `GetErpOfdmRate` can return, with the rate of each. -/
theorem GetErpOfdmRate_ok_cases {rate : Nat} {mode : WifiMode}
    (h : GetErpOfdmRate rate = .ok mode) :
    (rate = 6000000 ∧ mode = GetErpOfdmRate6Mbps) ∨
    (rate = 9000000 ∧ mode = GetErpOfdmRate9Mbps) ∨
    (rate = 12000000 ∧ mode = GetErpOfdmRate12Mbps) ∨
    (rate = 18000000 ∧ mode = GetErpOfdmRate18Mbps) ∨
    (rate = 24000000 ∧ mode = GetErpOfdmRate24Mbps) ∨
    (rate = 36000000 ∧ mode = GetErpOfdmRate36Mbps) ∨
    (rate = 48000000 ∧ mode = GetErpOfdmRate48Mbps) ∨
    (rate = 54000000 ∧ mode = GetErpOfdmRate54Mbps) := by
  unfold GetErpOfdmRate at h
  split at h <;> simp_all

/-- A look-up with `at` fails exactly on the keys that no entry has. -/
theorem at_error_iff {κ ν : Type} [BEq κ] [LawfulBEq κ] (table : List (κ × ν)) (key : κ) :
    std.map.at table key = .error PhyError.outOfRange ↔ key ∉ table.map Prod.fst := by
  induction table with
  | nil => simp [std.map.at, List.lookup]
  | cons entry rest ih =>
    obtain ⟨k, v⟩ := entry
    by_cases hk : key = k
    · subst hk
      simp [std.map.at, List.lookup]
    · have hb : (key == k) = false := by simpa using hk
      have hstep : std.map.at ((k, v) :: rest) key = std.map.at rest key := by
        simp [std.map.at, List.lookup, hb]
      rw [hstep, ih]
      simp [hk]

/-- C1: for every canonical bit rate `r` in 6, 9, 12, 18, 24, 36, 48, 54 Mbps,
`GetErpOfdmRate (r * 1000000)` returns the mode named `ErpOfdmRate<r>Mbps`; the
coding rate and constellation size that mode was created with are the
documented pair for `r`, and they are what `GetCodeRate` and
`GetConstellationSize` read from the lookup table under that name. -/
theorem GetErpOfdmRate_canonical (r : Nat) (codeRate : WifiCodeRate) (constellationSize : Nat)
    (h : (r, codeRate, constellationSize) ∈
      [(6, WIFI_CODE_RATE_1_2, 2), (9, WIFI_CODE_RATE_3_4, 2), (12, WIFI_CODE_RATE_1_2, 4),
       (18, WIFI_CODE_RATE_3_4, 4), (24, WIFI_CODE_RATE_1_2, 16), (36, WIFI_CODE_RATE_3_4, 16),
       (48, WIFI_CODE_RATE_2_3, 64), (54, WIFI_CODE_RATE_3_4, 64)]) :
    ∃ mode : WifiMode,
      GetErpOfdmRate (r * 1000000) = .ok mode ∧
      mode.GetUniqueName = "ErpOfdmRate" ++ toString r ++ "Mbps" ∧
      mode.codeRate = codeRate ∧
      mode.constellationSize = constellationSize ∧
      GetCodeRate mode.GetUniqueName = .ok mode.codeRate ∧
      GetConstellationSize mode.GetUniqueName = .ok mode.constellationSize := by
  simp only [List.mem_cons, List.mem_singleton, Prod.mk.injEq, List.not_mem_nil, or_false] at h
  rcases h with e | e | e | e | e | e | e | e <;>
  · obtain ⟨hrate, hcode, hsize⟩ := e
    subst hrate hcode hsize
    exact ⟨_, rfl, by decide, rfl, rfl, by decide, by decide⟩

/-- Witness for the theorem above at 48 Mbps, the entry with coding rate 2/3. -/
theorem GetErpOfdmRate_canonical_witness :
    (48, WIFI_CODE_RATE_2_3, 64) ∈
      [(6, WIFI_CODE_RATE_1_2, 2), (9, WIFI_CODE_RATE_3_4, 2), (12, WIFI_CODE_RATE_1_2, 4),
       (18, WIFI_CODE_RATE_3_4, 4), (24, WIFI_CODE_RATE_1_2, 16), (36, WIFI_CODE_RATE_3_4, 16),
       (48, WIFI_CODE_RATE_2_3, 64), (54, WIFI_CODE_RATE_3_4, 64)] ∧
    ∃ mode : WifiMode,
      GetErpOfdmRate (48 * 1000000) = .ok mode ∧
      mode.GetUniqueName = "ErpOfdmRate" ++ toString 48 ++ "Mbps" ∧
      mode.codeRate = WIFI_CODE_RATE_2_3 ∧
      mode.constellationSize = 64 ∧
      GetCodeRate mode.GetUniqueName = .ok mode.codeRate ∧
      GetConstellationSize mode.GetUniqueName = .ok mode.constellationSize :=
  ⟨by decide, GetErpOfdmRate_canonical 48 WIFI_CODE_RATE_2_3 64 (by decide)⟩

/-- C2: `GetErpOfdmRate` stops in its default branch (`NS_ABORT_MSG`), returning
no mode, for every value that is not one of the eight canonical rates, and
returns a mode for each of the eight: it fails if and only if the value is
outside that set. -/
theorem GetErpOfdmRate_fails_iff (rate : Nat) :
    (GetErpOfdmRate rate = .error PhyError.abortMsg ↔
      rate ∉ [6000000, 9000000, 12000000, 18000000, 24000000, 36000000, 48000000, 54000000]) ∧
    ((∃ mode, GetErpOfdmRate rate = .ok mode) ↔
      rate ∈ [6000000, 9000000, 12000000, 18000000, 24000000, 36000000, 48000000, 54000000]) := by
  by_cases hmem :
      rate ∈ [6000000, 9000000, 12000000, 18000000, 24000000, 36000000, 48000000, 54000000]
  · have hok : ∃ mode, GetErpOfdmRate rate = .ok mode := by
      simp only [List.mem_cons, List.mem_singleton, List.not_mem_nil, or_false] at hmem
      rcases hmem with rfl | rfl | rfl | rfl | rfl | rfl | rfl | rfl <;> exact ⟨_, rfl⟩
    obtain ⟨mode, hmode⟩ := hok
    refine ⟨?_, ?_⟩
    · rw [hmode]
      simp [hmem]
    · exact ⟨fun _ => hmem, fun _ => ⟨mode, hmode⟩⟩
  · have herr : GetErpOfdmRate rate = .error PhyError.abortMsg := by
      unfold GetErpOfdmRate
      split <;> simp_all
    refine ⟨?_, ?_⟩
    · simp [herr, hmem]
    · rw [herr]
      simp [hmem]

/-- C3: the lookup table holds exactly eight entries, under eight distinct
keys; `GetCodeRate` and `GetConstellationSize` fail (out-of-range exception of
`at`) if and only if the name is not one of these keys, so both fail on
exactly the same names, and both fail for `ErpOfdmRate99Mbps`. -/
theorem lookup_fails_iff (name : String) :
    m_erpOfdmModulationLookupTable.length = 8 ∧
    m_erpOfdmModulationLookupTable.map Prod.fst =
      ["ErpOfdmRate6Mbps", "ErpOfdmRate9Mbps", "ErpOfdmRate12Mbps", "ErpOfdmRate18Mbps",
       "ErpOfdmRate24Mbps", "ErpOfdmRate36Mbps", "ErpOfdmRate48Mbps", "ErpOfdmRate54Mbps"] ∧
    (m_erpOfdmModulationLookupTable.map Prod.fst).Nodup ∧
    (GetCodeRate name = .error PhyError.outOfRange ↔
      name ∉ m_erpOfdmModulationLookupTable.map Prod.fst) ∧
    (GetConstellationSize name = .error PhyError.outOfRange ↔
      name ∉ m_erpOfdmModulationLookupTable.map Prod.fst) ∧
    ((∃ codeRate, GetCodeRate name = .ok codeRate) ↔
      name ∈ m_erpOfdmModulationLookupTable.map Prod.fst) ∧
    ((∃ size, GetConstellationSize name = .ok size) ↔
      name ∈ m_erpOfdmModulationLookupTable.map Prod.fst) ∧
    ((∃ e, GetCodeRate name = .error e) ↔ (∃ e, GetConstellationSize name = .error e)) ∧
    GetCodeRate "ErpOfdmRate99Mbps" = .error PhyError.outOfRange ∧
    GetConstellationSize "ErpOfdmRate99Mbps" = .error PhyError.outOfRange := by
  have hat := at_error_iff m_erpOfdmModulationLookupTable name
  refine ⟨rfl, rfl, by decide, ?_, ?_, ?_, ?_, ?_, by decide, by decide⟩ <;>
  · cases hres : std.map.at m_erpOfdmModulationLookupTable name with
    | error e =>
      have he : e = PhyError.outOfRange := by
        unfold std.map.at at hres
        split at hres <;> simp_all
      subst he
      have hnot := hat.mp hres
      simp [GetCodeRate, GetConstellationSize, hres, Except.map, hnot]
    | ok entry =>
      have hin : name ∈ m_erpOfdmModulationLookupTable.map Prod.fst := by
        by_contra hcon
        rw [hat.mpr hcon] at hres
        cases hres
      simp [GetCodeRate, GetConstellationSize, hres, Except.map, hin]

end ErpOfdmPhy

/-! ## Header mode, durations and rates -/

namespace ErpOfdmPhy

open WifiCodeRate WifiModulationClass

/-- C4: for every transmission vector whose mode is one of the eight ERP-OFDM
modes, the assertion of `GetHeaderMode` holds and the result is the mode
`ErpOfdmRate6Mbps`, whatever the mode, channel width, guard interval and stream
count of the vector; that mode is the one of the lowest canonical rate. -/
theorem GetHeaderMode_eq_rate6 (txVector : WifiTxVector)
    (hmode : ∃ rate, GetErpOfdmRate rate = .ok txVector.GetMode) :
    txVector.GetMode.GetModulationClass = WIFI_MOD_CLASS_ERP_OFDM ∧
    GetHeaderMode txVector = .ok GetErpOfdmRate6Mbps ∧
    GetErpOfdmRate6Mbps.GetUniqueName = "ErpOfdmRate6Mbps" ∧
    GetErpOfdmRate 6000000 = .ok GetErpOfdmRate6Mbps ∧
    ∀ rate mode, GetErpOfdmRate rate = .ok mode → 6000000 ≤ rate := by
  obtain ⟨rate, hrate⟩ := hmode
  have hclass : txVector.GetMode.GetModulationClass = WIFI_MOD_CLASS_ERP_OFDM := by
    rcases GetErpOfdmRate_ok_cases hrate with h | h | h | h | h | h | h | h <;>
    · rw [h.2]
      rfl
  refine ⟨hclass, ?_, rfl, rfl, ?_⟩
  · simp [GetHeaderMode, hclass]
  · intro r m hr
    rcases GetErpOfdmRate_ok_cases hr with h | h | h | h | h | h | h | h <;> omega

/-- Witness for the theorem above: a 40 MHz, two-stream vector carrying the
54 Mbps mode. -/
theorem GetHeaderMode_eq_rate6_witness :
    (∃ rate, GetErpOfdmRate rate
      = .ok (⟨GetErpOfdmRate54Mbps, 40, 400, 2⟩ : WifiTxVector).GetMode) ∧
    (⟨GetErpOfdmRate54Mbps, 40, 400, 2⟩ : WifiTxVector).GetMode.GetModulationClass =
      WIFI_MOD_CLASS_ERP_OFDM ∧
    GetHeaderMode ⟨GetErpOfdmRate54Mbps, 40, 400, 2⟩ = .ok GetErpOfdmRate6Mbps ∧
    GetErpOfdmRate6Mbps.GetUniqueName = "ErpOfdmRate6Mbps" ∧
    GetErpOfdmRate 6000000 = .ok GetErpOfdmRate6Mbps ∧
    ∀ rate mode, GetErpOfdmRate rate = .ok mode → 6000000 ≤ rate :=
  ⟨⟨54000000, rfl⟩, GetHeaderMode_eq_rate6 ⟨GetErpOfdmRate54Mbps, 40, 400, 2⟩ ⟨54000000, rfl⟩⟩

/-- C5: for every transmission vector the preamble lasts 16 microseconds and
the header 4 microseconds; no field of the vector changes either result. -/
theorem durations_constant (txVector other : WifiTxVector) :
    GetPreambleDuration txVector = MicroSeconds 16 ∧
    GetHeaderDuration txVector = MicroSeconds 4 ∧
    (GetPreambleDuration txVector).microSeconds = 16 ∧
    (GetHeaderDuration txVector).microSeconds = 4 ∧
    GetPreambleDuration txVector = GetPreambleDuration other ∧
    GetHeaderDuration txVector = GetHeaderDuration other :=
  ⟨rfl, rfl, rfl, rfl, rfl, rfl⟩

/-- C8: for every catalogue name and every channel width, guard interval and
stream count, `GetPhyRate` is `CalculatePhyRate` applied to `GetCodeRate name`
and to the result of `GetDataRate`; both rates are computed from the one table
entry stored under the name. -/
theorem GetPhyRate_eq (CalculateDataRate : WifiCodeRate → Nat → Nat → Nat → Nat → Nat)
    (CalculatePhyRate : WifiCodeRate → Nat → Nat)
    (name : String) (channelWidth guardInterval nss : Nat)
    (hname : name ∈ m_erpOfdmModulationLookupTable.map Prod.fst) :
    ∃ codeRate constellationSize dataRate,
      std.map.at m_erpOfdmModulationLookupTable name = .ok (codeRate, constellationSize) ∧
      GetCodeRate name = .ok codeRate ∧
      GetConstellationSize name = .ok constellationSize ∧
      dataRate = CalculateDataRate codeRate constellationSize channelWidth guardInterval nss ∧
      GetDataRate CalculateDataRate name channelWidth guardInterval nss = .ok dataRate ∧
      GetPhyRate CalculateDataRate CalculatePhyRate name channelWidth guardInterval nss =
        .ok (CalculatePhyRate codeRate dataRate) := by
  cases hres : std.map.at m_erpOfdmModulationLookupTable name with
  | error e =>
    have he : e = PhyError.outOfRange := by
      unfold std.map.at at hres
      split at hres <;> simp_all
    subst he
    exact absurd hname ((at_error_iff _ _).mp hres)
  | ok entry =>
    obtain ⟨codeRate, constellationSize⟩ := entry
    refine ⟨codeRate, constellationSize, _, rfl, ?_, ?_, rfl, ?_, ?_⟩ <;>
    simp [GetPhyRate, GetDataRate, GetCodeRate, GetConstellationSize, hres, Except.map, bind,
      Except.bind, pure, Except.pure]

/-- Witness for the theorem above at the 48 Mbps name, with a data-rate formula
that adds its arguments and a gross-rate formula that doubles the data rate. -/
theorem GetPhyRate_eq_witness :
    "ErpOfdmRate48Mbps" ∈ m_erpOfdmModulationLookupTable.map Prod.fst ∧
    ∃ codeRate constellationSize dataRate,
      std.map.at m_erpOfdmModulationLookupTable "ErpOfdmRate48Mbps" =
        .ok (codeRate, constellationSize) ∧
      GetCodeRate "ErpOfdmRate48Mbps" = .ok codeRate ∧
      GetConstellationSize "ErpOfdmRate48Mbps" = .ok constellationSize ∧
      dataRate = (fun _ size width interval streams => size + width + interval + streams)
        codeRate constellationSize 20 800 1 ∧
      GetDataRate (fun _ size width interval streams => size + width + interval + streams)
        "ErpOfdmRate48Mbps" 20 800 1 = .ok dataRate ∧
      GetPhyRate (fun _ size width interval streams => size + width + interval + streams)
        (fun _ rate => 2 * rate) "ErpOfdmRate48Mbps" 20 800 1 =
        .ok ((fun _ rate => 2 * rate) codeRate dataRate) :=
  ⟨by decide,
    GetPhyRate_eq (fun _ size width interval streams => size + width + interval + streams)
      (fun _ rate => 2 * rate) "ErpOfdmRate48Mbps" 20 800 1 (by decide)⟩

/-- C9: of the eight modes created by the accessors, the mandatory flag given
to the mode factory is true for the 6, 12 and 24 Mbps modes and false for the
9, 18, 36, 48 and 54 Mbps modes, and all eight are created with modulation
class ERP-OFDM. -/
theorem mandatory_flags :
    (GetErpOfdmRate6Mbps.isMandatory = true ∧
     GetErpOfdmRate12Mbps.isMandatory = true ∧
     GetErpOfdmRate24Mbps.isMandatory = true) ∧
    (GetErpOfdmRate9Mbps.isMandatory = false ∧
     GetErpOfdmRate18Mbps.isMandatory = false ∧
     GetErpOfdmRate36Mbps.isMandatory = false ∧
     GetErpOfdmRate48Mbps.isMandatory = false ∧
     GetErpOfdmRate54Mbps.isMandatory = false) ∧
    (∀ rate mode, GetErpOfdmRate rate = .ok mode →
      (mode.isMandatory = true ↔ rate ∈ [6000000, 12000000, 24000000]) ∧
      mode.GetModulationClass = WIFI_MOD_CLASS_ERP_OFDM) := by
  refine ⟨⟨rfl, rfl, rfl⟩, ⟨rfl, rfl, rfl, rfl, rfl⟩, ?_⟩
  intro rate mode h
  rcases GetErpOfdmRate_ok_cases h with h | h | h | h | h | h | h | h <;>
  · obtain ⟨hr, hm⟩ := h
    subst hr hm
    exact ⟨by decide, rfl⟩

end ErpOfdmPhy

/-! ## The data rate along the catalogue -/

namespace ErpOfdmPhy

open WifiCodeRate WifiModulationClass

/-- The data rate of a catalogue mode under the OFDM formula: the bits per
subcarrier and the coding ratio are those of the table entry of the mode. -/
theorem GetDataRate_of_rate (symbolRate : Nat → Nat → Nat → Nat)
    (channelWidth guardInterval nss : Nat) {rate : Nat} {mode : WifiMode}
    (h : GetErpOfdmRate rate = .ok mode) :
    ∃ bits num den,
      GetDataRate (OfdmPhy.CalculateDataRate symbolRate) mode.GetUniqueName
        channelWidth guardInterval nss
        = .ok ((symbolRate channelWidth guardInterval nss * 48 * bits * num + (den - 1)) / den) ∧
      ((rate = 6000000 ∧ bits = 1 ∧ num = 1 ∧ den = 2) ∨
       (rate = 9000000 ∧ bits = 1 ∧ num = 3 ∧ den = 4) ∨
       (rate = 12000000 ∧ bits = 2 ∧ num = 1 ∧ den = 2) ∨
       (rate = 18000000 ∧ bits = 2 ∧ num = 3 ∧ den = 4) ∨
       (rate = 24000000 ∧ bits = 4 ∧ num = 1 ∧ den = 2) ∨
       (rate = 36000000 ∧ bits = 4 ∧ num = 3 ∧ den = 4) ∨
       (rate = 48000000 ∧ bits = 6 ∧ num = 2 ∧ den = 3) ∨
       (rate = 54000000 ∧ bits = 6 ∧ num = 3 ∧ den = 4)) := by
  have hlog : Nat.log2 2 = 1 ∧ Nat.log2 4 = 2 ∧ Nat.log2 16 = 4 ∧ Nat.log2 64 = 6 := by
    simp [Nat.log2]
  obtain ⟨hlog2, hlog4, hlog16, hlog64⟩ := hlog
  rcases GetErpOfdmRate_ok_cases h with k | k | k | k | k | k | k | k
  · obtain ⟨hr, hm⟩ := k
    subst hr hm
    refine ⟨1, 1, 2, ?_, by simp⟩
    simp [GetDataRate, GetCodeRate, GetConstellationSize, std.map.at, List.lookup,
      m_erpOfdmModulationLookupTable, OfdmPhy.CalculateDataRate, OfdmPhy.GetCodeRatio,
      WifiMode.GetUniqueName, WifiModeFactory.CreateWifiMode, Except.map, bind, Except.bind,
      pure, Except.pure, hlog2, hlog4, hlog16, hlog64,
      GetErpOfdmRate6Mbps, GetErpOfdmRate9Mbps, GetErpOfdmRate12Mbps, GetErpOfdmRate18Mbps,
      GetErpOfdmRate24Mbps, GetErpOfdmRate36Mbps, GetErpOfdmRate48Mbps, GetErpOfdmRate54Mbps]
  · obtain ⟨hr, hm⟩ := k
    subst hr hm
    refine ⟨1, 3, 4, ?_, by simp⟩
    simp [GetDataRate, GetCodeRate, GetConstellationSize, std.map.at, List.lookup,
      m_erpOfdmModulationLookupTable, OfdmPhy.CalculateDataRate, OfdmPhy.GetCodeRatio,
      WifiMode.GetUniqueName, WifiModeFactory.CreateWifiMode, Except.map, bind, Except.bind,
      pure, Except.pure, hlog2, hlog4, hlog16, hlog64,
      GetErpOfdmRate6Mbps, GetErpOfdmRate9Mbps, GetErpOfdmRate12Mbps, GetErpOfdmRate18Mbps,
      GetErpOfdmRate24Mbps, GetErpOfdmRate36Mbps, GetErpOfdmRate48Mbps, GetErpOfdmRate54Mbps]
  · obtain ⟨hr, hm⟩ := k
    subst hr hm
    refine ⟨2, 1, 2, ?_, by simp⟩
    simp [GetDataRate, GetCodeRate, GetConstellationSize, std.map.at, List.lookup,
      m_erpOfdmModulationLookupTable, OfdmPhy.CalculateDataRate, OfdmPhy.GetCodeRatio,
      WifiMode.GetUniqueName, WifiModeFactory.CreateWifiMode, Except.map, bind, Except.bind,
      pure, Except.pure, hlog2, hlog4, hlog16, hlog64,
      GetErpOfdmRate6Mbps, GetErpOfdmRate9Mbps, GetErpOfdmRate12Mbps, GetErpOfdmRate18Mbps,
      GetErpOfdmRate24Mbps, GetErpOfdmRate36Mbps, GetErpOfdmRate48Mbps, GetErpOfdmRate54Mbps]
  · obtain ⟨hr, hm⟩ := k
    subst hr hm
    refine ⟨2, 3, 4, ?_, by simp⟩
    simp [GetDataRate, GetCodeRate, GetConstellationSize, std.map.at, List.lookup,
      m_erpOfdmModulationLookupTable, OfdmPhy.CalculateDataRate, OfdmPhy.GetCodeRatio,
      WifiMode.GetUniqueName, WifiModeFactory.CreateWifiMode, Except.map, bind, Except.bind,
      pure, Except.pure, hlog2, hlog4, hlog16, hlog64,
      GetErpOfdmRate6Mbps, GetErpOfdmRate9Mbps, GetErpOfdmRate12Mbps, GetErpOfdmRate18Mbps,
      GetErpOfdmRate24Mbps, GetErpOfdmRate36Mbps, GetErpOfdmRate48Mbps, GetErpOfdmRate54Mbps]
  · obtain ⟨hr, hm⟩ := k
    subst hr hm
    refine ⟨4, 1, 2, ?_, by simp⟩
    simp [GetDataRate, GetCodeRate, GetConstellationSize, std.map.at, List.lookup,
      m_erpOfdmModulationLookupTable, OfdmPhy.CalculateDataRate, OfdmPhy.GetCodeRatio,
      WifiMode.GetUniqueName, WifiModeFactory.CreateWifiMode, Except.map, bind, Except.bind,
      pure, Except.pure, hlog2, hlog4, hlog16, hlog64,
      GetErpOfdmRate6Mbps, GetErpOfdmRate9Mbps, GetErpOfdmRate12Mbps, GetErpOfdmRate18Mbps,
      GetErpOfdmRate24Mbps, GetErpOfdmRate36Mbps, GetErpOfdmRate48Mbps, GetErpOfdmRate54Mbps]
  · obtain ⟨hr, hm⟩ := k
    subst hr hm
    refine ⟨4, 3, 4, ?_, by simp⟩
    simp [GetDataRate, GetCodeRate, GetConstellationSize, std.map.at, List.lookup,
      m_erpOfdmModulationLookupTable, OfdmPhy.CalculateDataRate, OfdmPhy.GetCodeRatio,
      WifiMode.GetUniqueName, WifiModeFactory.CreateWifiMode, Except.map, bind, Except.bind,
      pure, Except.pure, hlog2, hlog4, hlog16, hlog64,
      GetErpOfdmRate6Mbps, GetErpOfdmRate9Mbps, GetErpOfdmRate12Mbps, GetErpOfdmRate18Mbps,
      GetErpOfdmRate24Mbps, GetErpOfdmRate36Mbps, GetErpOfdmRate48Mbps, GetErpOfdmRate54Mbps]
  · obtain ⟨hr, hm⟩ := k
    subst hr hm
    refine ⟨6, 2, 3, ?_, by simp⟩
    simp [GetDataRate, GetCodeRate, GetConstellationSize, std.map.at, List.lookup,
      m_erpOfdmModulationLookupTable, OfdmPhy.CalculateDataRate, OfdmPhy.GetCodeRatio,
      WifiMode.GetUniqueName, WifiModeFactory.CreateWifiMode, Except.map, bind, Except.bind,
      pure, Except.pure, hlog2, hlog4, hlog16, hlog64,
      GetErpOfdmRate6Mbps, GetErpOfdmRate9Mbps, GetErpOfdmRate12Mbps, GetErpOfdmRate18Mbps,
      GetErpOfdmRate24Mbps, GetErpOfdmRate36Mbps, GetErpOfdmRate48Mbps, GetErpOfdmRate54Mbps]
  · obtain ⟨hr, hm⟩ := k
    subst hr hm
    refine ⟨6, 3, 4, ?_, by simp⟩
    simp [GetDataRate, GetCodeRate, GetConstellationSize, std.map.at, List.lookup,
      m_erpOfdmModulationLookupTable, OfdmPhy.CalculateDataRate, OfdmPhy.GetCodeRatio,
      WifiMode.GetUniqueName, WifiModeFactory.CreateWifiMode, Except.map, bind, Except.bind,
      pure, Except.pure, hlog2, hlog4, hlog16, hlog64,
      GetErpOfdmRate6Mbps, GetErpOfdmRate9Mbps, GetErpOfdmRate12Mbps, GetErpOfdmRate18Mbps,
      GetErpOfdmRate24Mbps, GetErpOfdmRate36Mbps, GetErpOfdmRate48Mbps, GetErpOfdmRate54Mbps]

/-- C6: for every fixed channel width, guard interval and stream count, and
whatever the symbol rate they give, the data rate is non-decreasing along the
mode order: when the mode of nominal rate `rateA` and the mode of nominal rate
`rateB` are catalogue modes and `rateA ≤ rateB`, both data rates are defined
and the first is at most the second.  The formula is the OFDM one, with the
rate proportional to the bits per subcarrier times the coding ratio. -/
theorem GetDataRate_monotone (symbolRate : Nat → Nat → Nat → Nat)
    (channelWidth guardInterval nss : Nat) (rateA rateB : Nat) (modeA modeB : WifiMode)
    (hA : GetErpOfdmRate rateA = .ok modeA) (hB : GetErpOfdmRate rateB = .ok modeB)
    (hle : rateA ≤ rateB) :
    ∃ dataRateA dataRateB,
      GetDataRate (OfdmPhy.CalculateDataRate symbolRate) modeA.GetUniqueName
        channelWidth guardInterval nss = .ok dataRateA ∧
      GetDataRate (OfdmPhy.CalculateDataRate symbolRate) modeB.GetUniqueName
        channelWidth guardInterval nss = .ok dataRateB ∧
      dataRateA ≤ dataRateB := by
  obtain ⟨bitsA, numA, denA, hdA, hcA⟩ :=
    GetDataRate_of_rate symbolRate channelWidth guardInterval nss hA
  obtain ⟨bitsB, numB, denB, hdB, hcB⟩ :=
    GetDataRate_of_rate symbolRate channelWidth guardInterval nss hB
  refine ⟨_, _, hdA, hdB, ?_⟩
  generalize symbolRate channelWidth guardInterval nss = s
  rcases hcA with h | h | h | h | h | h | h | h <;>
  rcases hcB with k | k | k | k | k | k | k | k <;>
  · obtain ⟨hrA, hbA, hnA, heA⟩ := h
    obtain ⟨hrB, hbB, hnB, heB⟩ := k
    subst hbA hnA heA hbB hnB heB
    omega

/-- Witness for the theorem above: the 9 Mbps and 48 Mbps modes at 20 MHz with 250000 symbols
per second. -/
theorem GetDataRate_monotone_witness :
    GetErpOfdmRate 9000000 = .ok GetErpOfdmRate9Mbps ∧
    GetErpOfdmRate 48000000 = .ok GetErpOfdmRate48Mbps ∧
    9000000 ≤ 48000000 ∧
    ∃ dataRateA dataRateB,
      GetDataRate (OfdmPhy.CalculateDataRate (fun _ _ _ => 250000))
        GetErpOfdmRate9Mbps.GetUniqueName 20 800 1 = .ok dataRateA ∧
      GetDataRate (OfdmPhy.CalculateDataRate (fun _ _ _ => 250000))
        GetErpOfdmRate48Mbps.GetUniqueName 20 800 1 = .ok dataRateB ∧
      dataRateA ≤ dataRateB :=
  ⟨rfl, rfl, by decide,
    GetDataRate_monotone (fun _ _ _ => 250000) 20 800 1 9000000 48000000
      GetErpOfdmRate9Mbps GetErpOfdmRate48Mbps rfl rfl (by decide)⟩

/-- C7: with the 20 MHz OFDM symbol of 4 microseconds (250000 symbols per
second, hence 12000000 subcarrier symbols per second over 48 data
subcarriers) and one spatial stream, the data rate of `ErpOfdmRate<r>Mbps` is
`r * 1000000` bit/s for each of the eight catalogue names, whatever the guard
interval argument; in particular it is 54000000 for `ErpOfdmRate54Mbps`.  The
product 12000000 * log2 (constellation size) * coding ratio of the table
entry equals `r * 1000000` exactly. -/
theorem GetDataRate_nominal (symbolRate : Nat → Nat → Nat → Nat) (guardInterval r : Nat)
    (hsym : symbolRate 20 guardInterval 1 = 250000)
    (hr : r ∈ [6, 9, 12, 18, 24, 36, 48, 54]) :
    GetDataRate (OfdmPhy.CalculateDataRate symbolRate) ("ErpOfdmRate" ++ toString r ++ "Mbps")
      20 guardInterval 1 = .ok (r * 1000000) ∧
    ∃ codeRate constellationSize,
      GetCodeRate ("ErpOfdmRate" ++ toString r ++ "Mbps") = .ok codeRate ∧
      GetConstellationSize ("ErpOfdmRate" ++ toString r ++ "Mbps") = .ok constellationSize ∧
      12000000 * Nat.log2 constellationSize * (OfdmPhy.GetCodeRatio codeRate).1 =
        r * 1000000 * (OfdmPhy.GetCodeRatio codeRate).2 := by
  have hlog : Nat.log2 2 = 1 ∧ Nat.log2 4 = 2 ∧ Nat.log2 16 = 4 ∧ Nat.log2 64 = 6 := by
    simp [Nat.log2]
  obtain ⟨hlog2, hlog4, hlog16, hlog64⟩ := hlog
  simp only [List.mem_cons, List.mem_singleton, List.not_mem_nil, or_false] at hr
  rcases hr with rfl | rfl | rfl | rfl | rfl | rfl | rfl | rfl
  · have hname : "ErpOfdmRate" ++ toString 6 ++ "Mbps" = "ErpOfdmRate6Mbps" := by decide
    rw [hname]
    refine ⟨?_, WIFI_CODE_RATE_1_2, 2, by decide, by decide, ?_⟩
    · simp [GetDataRate, GetCodeRate, GetConstellationSize, std.map.at, List.lookup,
        m_erpOfdmModulationLookupTable, OfdmPhy.CalculateDataRate, OfdmPhy.GetCodeRatio,
        Except.map, bind, Except.bind, pure, Except.pure, hlog2, hlog4, hlog16, hlog64, hsym]
    · simp [OfdmPhy.GetCodeRatio, hlog2, hlog4, hlog16, hlog64]
  · have hname : "ErpOfdmRate" ++ toString 9 ++ "Mbps" = "ErpOfdmRate9Mbps" := by decide
    rw [hname]
    refine ⟨?_, WIFI_CODE_RATE_3_4, 2, by decide, by decide, ?_⟩
    · simp [GetDataRate, GetCodeRate, GetConstellationSize, std.map.at, List.lookup,
        m_erpOfdmModulationLookupTable, OfdmPhy.CalculateDataRate, OfdmPhy.GetCodeRatio,
        Except.map, bind, Except.bind, pure, Except.pure, hlog2, hlog4, hlog16, hlog64, hsym]
    · simp [OfdmPhy.GetCodeRatio, hlog2, hlog4, hlog16, hlog64]
  · have hname : "ErpOfdmRate" ++ toString 12 ++ "Mbps" = "ErpOfdmRate12Mbps" := by decide
    rw [hname]
    refine ⟨?_, WIFI_CODE_RATE_1_2, 4, by decide, by decide, ?_⟩
    · simp [GetDataRate, GetCodeRate, GetConstellationSize, std.map.at, List.lookup,
        m_erpOfdmModulationLookupTable, OfdmPhy.CalculateDataRate, OfdmPhy.GetCodeRatio,
        Except.map, bind, Except.bind, pure, Except.pure, hlog2, hlog4, hlog16, hlog64, hsym]
    · simp [OfdmPhy.GetCodeRatio, hlog2, hlog4, hlog16, hlog64]
  · have hname : "ErpOfdmRate" ++ toString 18 ++ "Mbps" = "ErpOfdmRate18Mbps" := by decide
    rw [hname]
    refine ⟨?_, WIFI_CODE_RATE_3_4, 4, by decide, by decide, ?_⟩
    · simp [GetDataRate, GetCodeRate, GetConstellationSize, std.map.at, List.lookup,
        m_erpOfdmModulationLookupTable, OfdmPhy.CalculateDataRate, OfdmPhy.GetCodeRatio,
        Except.map, bind, Except.bind, pure, Except.pure, hlog2, hlog4, hlog16, hlog64, hsym]
    · simp [OfdmPhy.GetCodeRatio, hlog2, hlog4, hlog16, hlog64]
  · have hname : "ErpOfdmRate" ++ toString 24 ++ "Mbps" = "ErpOfdmRate24Mbps" := by decide
    rw [hname]
    refine ⟨?_, WIFI_CODE_RATE_1_2, 16, by decide, by decide, ?_⟩
    · simp [GetDataRate, GetCodeRate, GetConstellationSize, std.map.at, List.lookup,
        m_erpOfdmModulationLookupTable, OfdmPhy.CalculateDataRate, OfdmPhy.GetCodeRatio,
        Except.map, bind, Except.bind, pure, Except.pure, hlog2, hlog4, hlog16, hlog64, hsym]
    · simp [OfdmPhy.GetCodeRatio, hlog2, hlog4, hlog16, hlog64]
  · have hname : "ErpOfdmRate" ++ toString 36 ++ "Mbps" = "ErpOfdmRate36Mbps" := by decide
    rw [hname]
    refine ⟨?_, WIFI_CODE_RATE_3_4, 16, by decide, by decide, ?_⟩
    · simp [GetDataRate, GetCodeRate, GetConstellationSize, std.map.at, List.lookup,
        m_erpOfdmModulationLookupTable, OfdmPhy.CalculateDataRate, OfdmPhy.GetCodeRatio,
        Except.map, bind, Except.bind, pure, Except.pure, hlog2, hlog4, hlog16, hlog64, hsym]
    · simp [OfdmPhy.GetCodeRatio, hlog2, hlog4, hlog16, hlog64]
  · have hname : "ErpOfdmRate" ++ toString 48 ++ "Mbps" = "ErpOfdmRate48Mbps" := by decide
    rw [hname]
    refine ⟨?_, WIFI_CODE_RATE_2_3, 64, by decide, by decide, ?_⟩
    · simp [GetDataRate, GetCodeRate, GetConstellationSize, std.map.at, List.lookup,
        m_erpOfdmModulationLookupTable, OfdmPhy.CalculateDataRate, OfdmPhy.GetCodeRatio,
        Except.map, bind, Except.bind, pure, Except.pure, hlog2, hlog4, hlog16, hlog64, hsym]
    · simp [OfdmPhy.GetCodeRatio, hlog2, hlog4, hlog16, hlog64]
  · have hname : "ErpOfdmRate" ++ toString 54 ++ "Mbps" = "ErpOfdmRate54Mbps" := by decide
    rw [hname]
    refine ⟨?_, WIFI_CODE_RATE_3_4, 64, by decide, by decide, ?_⟩
    · simp [GetDataRate, GetCodeRate, GetConstellationSize, std.map.at, List.lookup,
        m_erpOfdmModulationLookupTable, OfdmPhy.CalculateDataRate, OfdmPhy.GetCodeRatio,
        Except.map, bind, Except.bind, pure, Except.pure, hlog2, hlog4, hlog16, hlog64, hsym]
    · simp [OfdmPhy.GetCodeRatio, hlog2, hlog4, hlog16, hlog64]

/-- Witness for the theorem above: `ErpOfdmRate54Mbps` at 20 MHz, short guard interval (400 ns),
one stream. -/
theorem GetDataRate_nominal_witness :
    (fun (_ _ _ : Nat) => 250000) 20 400 1 = 250000 ∧
    54 ∈ [6, 9, 12, 18, 24, 36, 48, 54] ∧
    GetDataRate (OfdmPhy.CalculateDataRate (fun _ _ _ => 250000))
      ("ErpOfdmRate" ++ toString 54 ++ "Mbps") 20 400 1 = .ok (54 * 1000000) ∧
    ∃ codeRate constellationSize,
      GetCodeRate ("ErpOfdmRate" ++ toString 54 ++ "Mbps") = .ok codeRate ∧
      GetConstellationSize ("ErpOfdmRate" ++ toString 54 ++ "Mbps") = .ok constellationSize ∧
      12000000 * Nat.log2 constellationSize * (OfdmPhy.GetCodeRatio codeRate).1 =
        54 * 1000000 * (OfdmPhy.GetCodeRatio codeRate).2 :=
  ⟨rfl, by decide, GetDataRate_nominal (fun _ _ _ => 250000) 400 54 rfl (by decide)⟩

end ErpOfdmPhy

/-! ## Initialisation of the modes is idempotent -/

namespace ModeRegistry

open WifiCodeRate WifiModulationClass

/-- Distinct rates resolve to distinct modes. -/
theorem GetErpOfdmRate_injective {rate other : Nat} {mode : WifiMode}
    (h : ErpOfdmPhy.GetErpOfdmRate rate = .ok mode)
    (k : ErpOfdmPhy.GetErpOfdmRate other = .ok mode) : rate = other := by
  rcases ErpOfdmPhy.GetErpOfdmRate_ok_cases h with a | a | a | a | a | a | a | a <;>
  rcases ErpOfdmPhy.GetErpOfdmRate_ok_cases k with b | b | b | b | b | b | b | b <;>
  · obtain ⟨hr, hm⟩ := a
    obtain ⟨ho, hn⟩ := b
    subst hr ho
    first
      | rfl
      | (exfalso; rw [hm] at hn; revert hn; decide)

/-- A call on an initialised static returns it and leaves the state as it is. -/
theorem GetErpOfdmRate_of_some {rate : Nat} {g : ModeRegistry} {mode : WifiMode}
    (h : staticOf rate g = some mode) : GetErpOfdmRate rate g = .ok (mode, g) := by
  unfold staticOf at h
  unfold GetErpOfdmRate
  split at h <;>
  first
    | (simp at h)
    | simp [GetErpOfdmRate6Mbps, GetErpOfdmRate9Mbps, GetErpOfdmRate12Mbps, GetErpOfdmRate18Mbps,
        GetErpOfdmRate24Mbps, GetErpOfdmRate36Mbps, GetErpOfdmRate48Mbps, GetErpOfdmRate54Mbps, h]

/-- The three outcomes of a call of `GetErpOfdmRate` on a state: the default
branch, a read of an initialised static, or the initialisation of the static
of that rate with one recorded creation and no other static touched. -/
theorem GetErpOfdmRate_step (rate : Nat) (g : ModeRegistry) :
    (ErpOfdmPhy.GetErpOfdmRate rate = .error PhyError.abortMsg ∧
      GetErpOfdmRate rate g = .error PhyError.abortMsg) ∨
    (∃ mode, staticOf rate g = some mode ∧ GetErpOfdmRate rate g = .ok (mode, g)) ∨
    (∃ mode g', staticOf rate g = none ∧ ErpOfdmPhy.GetErpOfdmRate rate = .ok mode ∧
      GetErpOfdmRate rate g = .ok (mode, g') ∧
      g'.createdModes = g.createdModes ++ [mode] ∧
      staticOf rate g' = some mode ∧
      ∀ other, other ≠ rate → staticOf other g' = staticOf other g) := by
  cases hs : staticOf rate g with
  | some mode => exact Or.inr (Or.inl ⟨mode, rfl, GetErpOfdmRate_of_some hs⟩)
  | none =>
    cases hp : ErpOfdmPhy.GetErpOfdmRate rate with
    | error e =>
      left
      unfold ErpOfdmPhy.GetErpOfdmRate at hp
      unfold GetErpOfdmRate
      split at hp <;> simp_all
    | ok mode =>
      right
      right
      rcases ErpOfdmPhy.GetErpOfdmRate_ok_cases hp with a | a | a | a | a | a | a | a
      · obtain ⟨hr, hm⟩ := a
        subst hr hm
        have hslot : g.erpOfdmRate6Mbps = none := hs
        have hacc : g.GetErpOfdmRate6Mbps = (ErpOfdmPhy.GetErpOfdmRate6Mbps,
            { g with createdModes := g.createdModes ++ [ErpOfdmPhy.GetErpOfdmRate6Mbps],
                     erpOfdmRate6Mbps := some ErpOfdmPhy.GetErpOfdmRate6Mbps }) := by
          simp only [GetErpOfdmRate6Mbps, hslot, CreateWifiMode]
          rfl
        refine ⟨_, _, rfl, rfl, congrArg Except.ok hacc, rfl, rfl, ?_⟩
        intro other hne
        unfold staticOf
        split <;> first | rfl | exact absurd rfl hne
      · obtain ⟨hr, hm⟩ := a
        subst hr hm
        have hslot : g.erpOfdmRate9Mbps = none := hs
        have hacc : g.GetErpOfdmRate9Mbps = (ErpOfdmPhy.GetErpOfdmRate9Mbps,
            { g with createdModes := g.createdModes ++ [ErpOfdmPhy.GetErpOfdmRate9Mbps],
                     erpOfdmRate9Mbps := some ErpOfdmPhy.GetErpOfdmRate9Mbps }) := by
          simp only [GetErpOfdmRate9Mbps, hslot, CreateWifiMode]
          rfl
        refine ⟨_, _, rfl, rfl, congrArg Except.ok hacc, rfl, rfl, ?_⟩
        intro other hne
        unfold staticOf
        split <;> first | rfl | exact absurd rfl hne
      · obtain ⟨hr, hm⟩ := a
        subst hr hm
        have hslot : g.erpOfdmRate12Mbps = none := hs
        have hacc : g.GetErpOfdmRate12Mbps = (ErpOfdmPhy.GetErpOfdmRate12Mbps,
            { g with createdModes := g.createdModes ++ [ErpOfdmPhy.GetErpOfdmRate12Mbps],
                     erpOfdmRate12Mbps := some ErpOfdmPhy.GetErpOfdmRate12Mbps }) := by
          simp only [GetErpOfdmRate12Mbps, hslot, CreateWifiMode]
          rfl
        refine ⟨_, _, rfl, rfl, congrArg Except.ok hacc, rfl, rfl, ?_⟩
        intro other hne
        unfold staticOf
        split <;> first | rfl | exact absurd rfl hne
      · obtain ⟨hr, hm⟩ := a
        subst hr hm
        have hslot : g.erpOfdmRate18Mbps = none := hs
        have hacc : g.GetErpOfdmRate18Mbps = (ErpOfdmPhy.GetErpOfdmRate18Mbps,
            { g with createdModes := g.createdModes ++ [ErpOfdmPhy.GetErpOfdmRate18Mbps],
                     erpOfdmRate18Mbps := some ErpOfdmPhy.GetErpOfdmRate18Mbps }) := by
          simp only [GetErpOfdmRate18Mbps, hslot, CreateWifiMode]
          rfl
        refine ⟨_, _, rfl, rfl, congrArg Except.ok hacc, rfl, rfl, ?_⟩
        intro other hne
        unfold staticOf
        split <;> first | rfl | exact absurd rfl hne
      · obtain ⟨hr, hm⟩ := a
        subst hr hm
        have hslot : g.erpOfdmRate24Mbps = none := hs
        have hacc : g.GetErpOfdmRate24Mbps = (ErpOfdmPhy.GetErpOfdmRate24Mbps,
            { g with createdModes := g.createdModes ++ [ErpOfdmPhy.GetErpOfdmRate24Mbps],
                     erpOfdmRate24Mbps := some ErpOfdmPhy.GetErpOfdmRate24Mbps }) := by
          simp only [GetErpOfdmRate24Mbps, hslot, CreateWifiMode]
          rfl
        refine ⟨_, _, rfl, rfl, congrArg Except.ok hacc, rfl, rfl, ?_⟩
        intro other hne
        unfold staticOf
        split <;> first | rfl | exact absurd rfl hne
      · obtain ⟨hr, hm⟩ := a
        subst hr hm
        have hslot : g.erpOfdmRate36Mbps = none := hs
        have hacc : g.GetErpOfdmRate36Mbps = (ErpOfdmPhy.GetErpOfdmRate36Mbps,
            { g with createdModes := g.createdModes ++ [ErpOfdmPhy.GetErpOfdmRate36Mbps],
                     erpOfdmRate36Mbps := some ErpOfdmPhy.GetErpOfdmRate36Mbps }) := by
          simp only [GetErpOfdmRate36Mbps, hslot, CreateWifiMode]
          rfl
        refine ⟨_, _, rfl, rfl, congrArg Except.ok hacc, rfl, rfl, ?_⟩
        intro other hne
        unfold staticOf
        split <;> first | rfl | exact absurd rfl hne
      · obtain ⟨hr, hm⟩ := a
        subst hr hm
        have hslot : g.erpOfdmRate48Mbps = none := hs
        have hacc : g.GetErpOfdmRate48Mbps = (ErpOfdmPhy.GetErpOfdmRate48Mbps,
            { g with createdModes := g.createdModes ++ [ErpOfdmPhy.GetErpOfdmRate48Mbps],
                     erpOfdmRate48Mbps := some ErpOfdmPhy.GetErpOfdmRate48Mbps }) := by
          simp only [GetErpOfdmRate48Mbps, hslot, CreateWifiMode]
          rfl
        refine ⟨_, _, rfl, rfl, congrArg Except.ok hacc, rfl, rfl, ?_⟩
        intro other hne
        unfold staticOf
        split <;> first | rfl | exact absurd rfl hne
      · obtain ⟨hr, hm⟩ := a
        subst hr hm
        have hslot : g.erpOfdmRate54Mbps = none := hs
        have hacc : g.GetErpOfdmRate54Mbps = (ErpOfdmPhy.GetErpOfdmRate54Mbps,
            { g with createdModes := g.createdModes ++ [ErpOfdmPhy.GetErpOfdmRate54Mbps],
                     erpOfdmRate54Mbps := some ErpOfdmPhy.GetErpOfdmRate54Mbps }) := by
          simp only [GetErpOfdmRate54Mbps, hslot, CreateWifiMode]
          rfl
        refine ⟨_, _, rfl, rfl, congrArg Except.ok hacc, rfl, rfl, ?_⟩
        intro other hne
        unfold staticOf
        split <;> first | rfl | exact absurd rfl hne

/-- The loop of `InitializeModes` leaves a state alone in which the static of
every rate of the list is initialised. -/
theorem initLoop_fixed (rates : List Nat) (g : ModeRegistry)
    (h : ∀ rate ∈ rates, ∃ mode, staticOf rate g = some mode) :
    rates.foldlM (fun state rate => (GetErpOfdmRate rate state).map (fun r => r.2)) g
      = .ok g := by
  induction rates with
  | nil => rfl
  | cons rate rest ih =>
    obtain ⟨mode, hmode⟩ := h rate (List.mem_cons_self rate rest)
    have hrest := ih (fun other hother => h other (List.mem_cons_of_mem rate hother))
    simp only [List.foldlM_cons, GetErpOfdmRate_of_some hmode, Except.map, bind, Except.bind]
    exact hrest

/-- What the loop of `InitializeModes` does when it completes: initialised
statics keep their mode, the static of every rate of the list is initialised,
and the creations recorded by the loop are pairwise distinct, each one the
initialisation of a static that was uninitialised before the loop and holds
the created mode after it. -/
theorem initLoop_spec (rates : List Nat) : ∀ (g g1 : ModeRegistry),
    rates.foldlM (fun state rate => (GetErpOfdmRate rate state).map (fun r => r.2)) g
      = .ok g1 →
    (∀ rate mode, staticOf rate g = some mode → staticOf rate g1 = some mode) ∧
    (∀ rate ∈ rates, ∃ mode, staticOf rate g1 = some mode) ∧
    ∃ new, g1.createdModes = g.createdModes ++ new ∧ new.Nodup ∧
      ∀ m ∈ new, ∃ rate, ErpOfdmPhy.GetErpOfdmRate rate = .ok m ∧
        staticOf rate g = none ∧ staticOf rate g1 = some m := by
  induction rates with
  | nil =>
    intro g g1 h
    have hg : g = g1 := by
      simpa [pure, Except.pure] using h
    subst hg
    exact ⟨fun _ _ hm => hm, fun _ hr => absurd hr (List.not_mem_nil _), [], by simp, by simp,
      fun _ hm => absurd hm (List.not_mem_nil _)⟩
  | cons rate rest ih =>
    intro g g1 h
    rcases GetErpOfdmRate_step rate g with ⟨_, herr⟩ | ⟨mode, hsome, hcall⟩ |
        ⟨mode, g', hnone, hpure, hcall, hcreated, hset, hothers⟩
    · simp [List.foldlM_cons, herr, Except.map, bind, Except.bind] at h
    · simp only [List.foldlM_cons, hcall, Except.map, bind, Except.bind] at h
      obtain ⟨hkeep, hall, new, hnew, hnodup, hfresh⟩ := ih g g1 h
      refine ⟨hkeep, ?_, new, hnew, hnodup, hfresh⟩
      intro other hother
      rcases List.mem_cons.mp hother with heq | hin
      · subst heq
        exact ⟨mode, hkeep _ _ hsome⟩
      · exact hall other hin
    · simp only [List.foldlM_cons, hcall, Except.map, bind, Except.bind] at h
      obtain ⟨hkeep, hall, new, hnew, hnodup, hfresh⟩ := ih g' g1 h
      have hne : ∀ other mode', staticOf other g = some mode' → other ≠ rate := by
        intro other mode' hm heq
        subst heq
        rw [hnone] at hm
        cases hm
      refine ⟨?_, ?_, mode :: new, ?_, ?_, ?_⟩
      · intro other mode' hm
        apply hkeep
        rw [hothers other (hne other mode' hm)]
        exact hm
      · intro other hother
        rcases List.mem_cons.mp hother with heq | hin
        · subst heq
          exact ⟨mode, hkeep _ _ hset⟩
        · exact hall other hin
      · rw [hnew, hcreated]
        simp
      · refine List.nodup_cons.mpr ⟨?_, hnodup⟩
        intro hmem
        obtain ⟨other, hother, hnone', _⟩ := hfresh mode hmem
        have heq : other = rate := GetErpOfdmRate_injective hother hpure
        subst heq
        rw [hset] at hnone'
        cases hnone'
      · intro m hm
        rcases List.mem_cons.mp hm with heq | hin
        · subst heq
          exact ⟨rate, hpure, hnone, hkeep _ _ hset⟩
        · obtain ⟨other, hother, hnone', hsome'⟩ := hfresh m hin
          refine ⟨other, hother, ?_, hsome'⟩
          have hdiff : other ≠ rate := by
            intro heq
            subst heq
            rw [hset] at hnone'
            cases hnone'
          rw [← hothers other hdiff]
          exact hnone'

/-- `InitializeModes` on a state whose statics for the rate list are all
initialised returns that state. -/
theorem InitializeModes_fixed (ofdmRatesBpsList : List (Nat × List Nat)) (rates : List Nat)
    (g : ModeRegistry)
    (hrates : ErpOfdmPhy.GetErpOfdmRatesBpsList ofdmRatesBpsList = .ok rates)
    (h : ∀ rate ∈ rates, ∃ mode, staticOf rate g = some mode) :
    InitializeModes ofdmRatesBpsList g = .ok g := by
  simp only [InitializeModes, hrates, bind, Except.bind]
  exact initLoop_fixed rates g h

/-- C10: `InitializeModes` is idempotent on the mode registry.  From any state,
running it twice gives what running it once gives (the same state, or the
same failure when the rate list is missing or holds a rate of the default
branch).  When the first run completes in `g1`, a second run returns `g1`
itself, so each of the eight accessors returns after the second run the mode
it returns after the first; every rate of the list then resolves to its
stored mode without any creation; and the creations recorded by the first run
are pairwise distinct, so that over both runs no mode is created twice. -/
theorem InitializeModes_idempotent (ofdmRatesBpsList : List (Nat × List Nat))
    (g : ModeRegistry) :
    (InitializeModes ofdmRatesBpsList g >>= InitializeModes ofdmRatesBpsList)
      = InitializeModes ofdmRatesBpsList g ∧
    ∀ g1, InitializeModes ofdmRatesBpsList g = .ok g1 →
      InitializeModes ofdmRatesBpsList g1 = .ok g1 ∧
      (∀ g2, InitializeModes ofdmRatesBpsList g1 = .ok g2 →
        g2 = g1 ∧
        (g2.GetErpOfdmRate6Mbps).1 = (g1.GetErpOfdmRate6Mbps).1 ∧
        (g2.GetErpOfdmRate9Mbps).1 = (g1.GetErpOfdmRate9Mbps).1 ∧
        (g2.GetErpOfdmRate12Mbps).1 = (g1.GetErpOfdmRate12Mbps).1 ∧
        (g2.GetErpOfdmRate18Mbps).1 = (g1.GetErpOfdmRate18Mbps).1 ∧
        (g2.GetErpOfdmRate24Mbps).1 = (g1.GetErpOfdmRate24Mbps).1 ∧
        (g2.GetErpOfdmRate36Mbps).1 = (g1.GetErpOfdmRate36Mbps).1 ∧
        (g2.GetErpOfdmRate48Mbps).1 = (g1.GetErpOfdmRate48Mbps).1 ∧
        (g2.GetErpOfdmRate54Mbps).1 = (g1.GetErpOfdmRate54Mbps).1) ∧
      (∃ rates, ErpOfdmPhy.GetErpOfdmRatesBpsList ofdmRatesBpsList = .ok rates ∧
        ∀ rate ∈ rates, ∃ mode, g1.GetErpOfdmRate rate = .ok (mode, g1)) ∧
      ∃ new, g1.createdModes = g.createdModes ++ new ∧ new.Nodup := by
  have hmain : ∀ g1, InitializeModes ofdmRatesBpsList g = .ok g1 →
      InitializeModes ofdmRatesBpsList g1 = .ok g1 ∧
      (∃ rates, ErpOfdmPhy.GetErpOfdmRatesBpsList ofdmRatesBpsList = .ok rates ∧
        ∀ rate ∈ rates, ∃ mode, g1.GetErpOfdmRate rate = .ok (mode, g1)) ∧
      ∃ new, g1.createdModes = g.createdModes ++ new ∧ new.Nodup := by
    intro g1 hrun
    cases hrates : ErpOfdmPhy.GetErpOfdmRatesBpsList ofdmRatesBpsList with
    | error e =>
      simp [InitializeModes, hrates, bind, Except.bind] at hrun
    | ok rates =>
      simp only [InitializeModes, hrates, bind, Except.bind] at hrun
      obtain ⟨_, hall, new, hnew, hnodup, _⟩ := initLoop_spec rates g g1 hrun
      refine ⟨InitializeModes_fixed ofdmRatesBpsList rates g1 hrates hall, ⟨rates, rfl, ?_⟩,
        new, hnew, hnodup⟩
      intro rate hrate
      obtain ⟨mode, hmode⟩ := hall rate hrate
      exact ⟨mode, GetErpOfdmRate_of_some hmode⟩
  refine ⟨?_, ?_⟩
  · cases hrun : InitializeModes ofdmRatesBpsList g with
    | error e => rfl
    | ok g1 =>
      have hfix := (hmain g1 hrun).1
      simpa [bind, Except.bind] using hfix
  · intro g1 hrun
    obtain ⟨hfix, hread, hnew⟩ := hmain g1 hrun
    refine ⟨hfix, ?_, hread, hnew⟩
    intro g2 hsecond
    rw [hfix] at hsecond
    cases hsecond
    exact ⟨rfl, rfl, rfl, rfl, rfl, rfl, rfl, rfl, rfl⟩

/-- Witness for the theorem above: from the state at process start, with the
eight canonical rates as the 20 MHz list, the first run completes in the state
`g1` where the eight modes have been created once each, in rate order, and
every static holds its mode; a second run returns `g1`. -/
theorem InitializeModes_idempotent_witness :
    ∃ g1 : ModeRegistry,
      InitializeModes [(20, [6000000, 9000000, 12000000, 18000000, 24000000, 36000000, 48000000, 54000000])] initial = .ok g1 ∧
      g1.createdModes =
        [ErpOfdmPhy.GetErpOfdmRate6Mbps, ErpOfdmPhy.GetErpOfdmRate9Mbps,
         ErpOfdmPhy.GetErpOfdmRate12Mbps, ErpOfdmPhy.GetErpOfdmRate18Mbps,
         ErpOfdmPhy.GetErpOfdmRate24Mbps, ErpOfdmPhy.GetErpOfdmRate36Mbps,
         ErpOfdmPhy.GetErpOfdmRate48Mbps, ErpOfdmPhy.GetErpOfdmRate54Mbps] ∧
      g1.erpOfdmRate6Mbps = some ErpOfdmPhy.GetErpOfdmRate6Mbps ∧
      g1.erpOfdmRate54Mbps = some ErpOfdmPhy.GetErpOfdmRate54Mbps ∧
      InitializeModes [(20, [6000000, 9000000, 12000000, 18000000, 24000000, 36000000, 48000000, 54000000])] g1 = .ok g1 ∧
      ∃ new, g1.createdModes = initial.createdModes ++ new ∧ new.Nodup :=
  ⟨{ createdModes :=
          [ErpOfdmPhy.GetErpOfdmRate6Mbps, ErpOfdmPhy.GetErpOfdmRate9Mbps,
           ErpOfdmPhy.GetErpOfdmRate12Mbps, ErpOfdmPhy.GetErpOfdmRate18Mbps,
           ErpOfdmPhy.GetErpOfdmRate24Mbps, ErpOfdmPhy.GetErpOfdmRate36Mbps,
           ErpOfdmPhy.GetErpOfdmRate48Mbps, ErpOfdmPhy.GetErpOfdmRate54Mbps],
        erpOfdmRate6Mbps := some ErpOfdmPhy.GetErpOfdmRate6Mbps,
        erpOfdmRate9Mbps := some ErpOfdmPhy.GetErpOfdmRate9Mbps,
        erpOfdmRate12Mbps := some ErpOfdmPhy.GetErpOfdmRate12Mbps,
        erpOfdmRate18Mbps := some ErpOfdmPhy.GetErpOfdmRate18Mbps,
        erpOfdmRate24Mbps := some ErpOfdmPhy.GetErpOfdmRate24Mbps,
        erpOfdmRate36Mbps := some ErpOfdmPhy.GetErpOfdmRate36Mbps,
        erpOfdmRate48Mbps := some ErpOfdmPhy.GetErpOfdmRate48Mbps,
        erpOfdmRate54Mbps := some ErpOfdmPhy.GetErpOfdmRate54Mbps },
    by decide, rfl, rfl, rfl,
    ((InitializeModes_idempotent [(20, [6000000, 9000000, 12000000, 18000000, 24000000, 36000000, 48000000, 54000000])] initial).2 _ (by decide)).1,
    ((InitializeModes_idempotent [(20, [6000000, 9000000, 12000000, 18000000, 24000000, 36000000, 48000000, 54000000])] initial).2 _ (by decide)).2.2.2⟩

end ModeRegistry

/-! ## Transmission units -/

namespace ErpOfdmPhy

open WifiCodeRate WifiModulationClass

/-- C11: each call of `BuildPpdu` on a non-empty map takes exactly one
identifier from the global counter: the unit is stamped with the current
value, the counter advances by one, and the owning device and the mode list
are as they were.  Of two consecutive calls, the second stamps an identifier
strictly greater than, hence distinct from, the one of the first. -/
theorem BuildPpdu_consumes_one_uid {Psdu : Type} (self : PhyEntity)
    (psdus psdus2 : List (Nat × Psdu)) (txVector txVector2 : WifiTxVector)
    (ppduDuration ppduDuration2 : Time) (hne : psdus ≠ []) (hne2 : psdus2 ≠ []) :
    ∃ ppdu next ppdu2 next2,
      BuildPpdu self psdus txVector ppduDuration = some (ppdu, next) ∧
      ppdu.uid = self.m_globalPpduUid ∧
      next.m_globalPpduUid = self.m_globalPpduUid + 1 ∧
      next.m_wifiPhy = self.m_wifiPhy ∧
      next.m_modeList = self.m_modeList ∧
      BuildPpdu next psdus2 txVector2 ppduDuration2 = some (ppdu2, next2) ∧
      ppdu2.uid = next.m_globalPpduUid ∧
      next2.m_globalPpduUid = next.m_globalPpduUid + 1 ∧
      next2.m_wifiPhy = self.m_wifiPhy ∧
      next2.m_modeList = self.m_modeList ∧
      ppdu.uid < ppdu2.uid ∧
      ppdu.uid ≠ ppdu2.uid := by
  cases psdus with
  | nil => exact absurd rfl hne
  | cons first rest =>
    cases psdus2 with
    | nil => exact absurd rfl hne2
    | cons first2 rest2 =>
      refine ⟨_, _, _, _, rfl, rfl, rfl, rfl, rfl, rfl, rfl, rfl, rfl, rfl, ?_, ?_⟩
      · exact Nat.lt_succ_self _
      · exact Nat.ne_of_lt (Nat.lt_succ_self _)

/-- Witness for the theorem above: two calls from a counter at 7, the first on
a map of two frames and the second on a map of one. -/
theorem BuildPpdu_consumes_one_uid_witness :
    [(1, "frame a"), (2, "frame b")] ≠ ([] : List (Nat × String)) ∧
    [(1, "frame c")] ≠ ([] : List (Nat × String)) ∧
    ∃ ppdu next ppdu2 next2,
      BuildPpdu ⟨⟨WifiPhyBand.WIFI_PHY_BAND_2_4GHZ⟩, [], 7⟩ [(1, "frame a"), (2, "frame b")]
        ⟨GetErpOfdmRate6Mbps, 20, 800, 1⟩ (MicroSeconds 100) = some (ppdu, next) ∧
      ppdu.uid = 7 ∧
      next.m_globalPpduUid = 7 + 1 ∧
      next.m_wifiPhy = ⟨WifiPhyBand.WIFI_PHY_BAND_2_4GHZ⟩ ∧
      next.m_modeList = [] ∧
      BuildPpdu next [(1, "frame c")] ⟨GetErpOfdmRate54Mbps, 20, 800, 1⟩ (MicroSeconds 50)
        = some (ppdu2, next2) ∧
      ppdu2.uid = next.m_globalPpduUid ∧
      next2.m_globalPpduUid = next.m_globalPpduUid + 1 ∧
      next2.m_wifiPhy = ⟨WifiPhyBand.WIFI_PHY_BAND_2_4GHZ⟩ ∧
      next2.m_modeList = [] ∧
      ppdu.uid < ppdu2.uid ∧
      ppdu.uid ≠ ppdu2.uid :=
  ⟨by decide, by decide,
    BuildPpdu_consumes_one_uid ⟨⟨WifiPhyBand.WIFI_PHY_BAND_2_4GHZ⟩, [], 7⟩
      [(1, "frame a"), (2, "frame b")] [(1, "frame c")] ⟨GetErpOfdmRate6Mbps, 20, 800, 1⟩
      ⟨GetErpOfdmRate54Mbps, 20, 800, 1⟩ (MicroSeconds 100) (MicroSeconds 50)
      (by decide) (by decide)⟩

/-- C12, as stated, fails: the frame of the unit is the one of the first entry
of the map in iteration order, which need not be the entry of the smallest
key.  On the map that iterates as `(2, a), (1, b)` the unit carries `a`,
while the entry of the smallest key carries `b`. -/
theorem BuildPpdu_not_smallest_key :
    ¬ ∀ (self : PhyEntity) (psdus : List (Nat × String)) (txVector : WifiTxVector)
        (ppduDuration : Time), psdus ≠ [] → (psdus.map Prod.fst).Nodup →
        ∀ entry ∈ psdus, (∀ other ∈ psdus, entry.1 ≤ other.1) →
          ∃ ppdu next, BuildPpdu self psdus txVector ppduDuration = some (ppdu, next) ∧
            ppdu.psdu = entry.2 := by
  intro hclaim
  obtain ⟨ppdu, next, hbuild, hpsdu⟩ :=
    hclaim ⟨⟨WifiPhyBand.WIFI_PHY_BAND_5GHZ⟩, [], 0⟩ [(2, "a"), (1, "b")]
      ⟨GetErpOfdmRate6Mbps, 20, 800, 1⟩ (MicroSeconds 100) (by decide) (by decide)
      (1, "b") (by decide) (by decide)
  have hfirst : ppdu.psdu = "a" := by
    simp only [BuildPpdu, Option.some.injEq, Prod.mk.injEq] at hbuild
    rw [← hbuild.1]
  rw [hfirst] at hpsdu
  exact absurd hpsdu (by decide)

/-- C12, amended: for every non-empty frame map, transmission vector and
duration, `BuildPpdu` returns exactly one unit, whose frame is the one of the
first entry of the map in iteration order (the entry `begin ()` points to),
whose transmission vector is the one passed in and whose band is the band of
the owning device; the unit and the state after the call depend neither on
the other entries of the map nor on the duration.  When the map iterates in
ascending key order, that first entry is the entry of the smallest key. -/
theorem BuildPpdu_first_entry {Psdu : Type} (self : PhyEntity) (psdus : List (Nat × Psdu))
    (txVector : WifiTxVector) (ppduDuration : Time) (hne : psdus ≠ []) :
    ∃ first rest ppdu next,
      psdus = first :: rest ∧
      BuildPpdu self psdus txVector ppduDuration = some (ppdu, next) ∧
      ppdu.psdu = first.2 ∧
      ppdu.txVector = txVector ∧
      ppdu.band = self.m_wifiPhy.GetPhyBand ∧
      (∀ (others : List (Nat × Psdu)) (otherDuration : Time),
        BuildPpdu self (first :: others) txVector otherDuration = some (ppdu, next)) ∧
      (psdus.Pairwise (fun a b => a.1 < b.1) → ∀ entry ∈ psdus, first.1 ≤ entry.1) := by
  cases psdus with
  | nil => exact absurd rfl hne
  | cons first rest =>
    refine ⟨first, rest, _, _, rfl, rfl, rfl, rfl, rfl, fun _ _ => rfl, ?_⟩
    intro hsorted entry hentry
    rcases List.mem_cons.mp hentry with heq | hin
    · rw [heq]
    · exact Nat.le_of_lt ((List.pairwise_cons.mp hsorted).1 entry hin)

/-- Witness for the theorem above: a map that iterates as `(2, a), (1, b)`, on
a 5 GHz device. -/
theorem BuildPpdu_first_entry_witness :
    [(2, "a"), (1, "b")] ≠ ([] : List (Nat × String)) ∧
    ∃ first rest ppdu next,
      [(2, "a"), (1, "b")] = first :: rest ∧
      BuildPpdu ⟨⟨WifiPhyBand.WIFI_PHY_BAND_5GHZ⟩, [], 0⟩ [(2, "a"), (1, "b")]
        ⟨GetErpOfdmRate6Mbps, 20, 800, 1⟩ (MicroSeconds 100) = some (ppdu, next) ∧
      ppdu.psdu = first.2 ∧
      ppdu.txVector = ⟨GetErpOfdmRate6Mbps, 20, 800, 1⟩ ∧
      ppdu.band = (⟨WifiPhyBand.WIFI_PHY_BAND_5GHZ⟩ : WifiPhy).GetPhyBand ∧
      (∀ (others : List (Nat × String)) (otherDuration : Time),
        BuildPpdu ⟨⟨WifiPhyBand.WIFI_PHY_BAND_5GHZ⟩, [], 0⟩ (first :: others)
          ⟨GetErpOfdmRate6Mbps, 20, 800, 1⟩ otherDuration = some (ppdu, next)) ∧
      (([(2, "a"), (1, "b")] : List (Nat × String)).Pairwise (fun a b => a.1 < b.1) →
        ∀ entry ∈ ([(2, "a"), (1, "b")] : List (Nat × String)), first.1 ≤ entry.1) :=
  ⟨by decide,
    BuildPpdu_first_entry ⟨⟨WifiPhyBand.WIFI_PHY_BAND_5GHZ⟩, [], 0⟩ [(2, "a"), (1, "b")]
      ⟨GetErpOfdmRate6Mbps, 20, 800, 1⟩ (MicroSeconds 100) (by decide)⟩

end ErpOfdmPhy

/-! ## The mode list after construction, and the remaining look-ups -/

namespace ErpOfdmPhy

open WifiCodeRate WifiModulationClass

/-- The loop of the constructor completes with `modes` exactly when `modes` is
the list it started from followed by the modes of the rates, in order. -/
theorem constructorLoop_ok_iff (rates : List Nat) : ∀ (start modes : List WifiMode),
    rates.foldlM (fun modeList rate => do
        let mode ← GetErpOfdmRate rate
        pure (modeList ++ [mode])) start = .ok modes ↔
    ∃ added, modes = start ++ added ∧
      List.Forall₂ (fun rate mode => GetErpOfdmRate rate = .ok mode) rates added := by
  induction rates with
  | nil =>
    intro start modes
    simp only [List.foldlM_nil, pure, Except.pure, Except.ok.injEq, List.forall₂_nil_left_iff]
    constructor
    · intro h
      exact ⟨[], by simp [h], rfl⟩
    · rintro ⟨added, hmodes, hnil⟩
      subst hnil
      simp [hmodes]
  | cons rate rest ih =>
    intro start modes
    cases hrate : GetErpOfdmRate rate with
    | error e =>
      have hstep : (rate :: rest).foldlM (fun modeList rate => do
            let mode ← GetErpOfdmRate rate
            pure (modeList ++ [mode])) start = .error e := by
        rw [List.foldlM_cons, hrate]
        rfl
      rw [hstep]
      constructor
      · intro h
        cases h
      · rintro ⟨added, _, hall⟩
        cases hall with
        | cons hhead _ =>
          rw [hrate] at hhead
          cases hhead
    | ok mode =>
      have hstep : (rate :: rest).foldlM (fun modeList rate => do
            let mode ← GetErpOfdmRate rate
            pure (modeList ++ [mode])) start
          = rest.foldlM (fun modeList rate => do
            let mode ← GetErpOfdmRate rate
            pure (modeList ++ [mode])) (start ++ [mode]) := by
        rw [List.foldlM_cons, hrate]
        rfl
      rw [hstep, ih (start ++ [mode]) modes]
      constructor
      · rintro ⟨added, hmodes, hall⟩
        exact ⟨mode :: added, by simp [hmodes], List.Forall₂.cons hrate hall⟩
      · rintro ⟨added, hmodes, hall⟩
        cases hall with
        | cons hhead htail =>
          rw [hrate] at hhead
          cases hhead
          exact ⟨_, by simp [hmodes], htail⟩

/-- The constructor completes with `modes` exactly when `modes` is the list of
the modes of the rates, in order. -/
theorem constructor_ok_iff (ofdmRatesBpsList : List (Nat × List Nat))
    (ofdmModeList : List WifiMode) (rates : List Nat)
    (hrates : GetErpOfdmRatesBpsList ofdmRatesBpsList = .ok rates) (modes : List WifiMode) :
    ErpOfdmPhy ofdmRatesBpsList ofdmModeList = .ok modes ↔
      List.Forall₂ (fun rate mode => GetErpOfdmRate rate = .ok mode) rates modes := by
  have hctor : ErpOfdmPhy ofdmRatesBpsList ofdmModeList
      = rates.foldlM (fun modeList rate => do
          let mode ← GetErpOfdmRate rate
          pure (modeList ++ [mode])) [] := by
    simp only [ErpOfdmPhy, hrates, OfdmPhy.OfdmPhy]
    rfl
  rw [hctor, constructorLoop_ok_iff rates [] modes]
  constructor
  · rintro ⟨added, hmodes, hall⟩
    rw [hmodes]
    exact hall
  · intro hall
    exact ⟨modes, by simp, hall⟩

/-- C13: after construction the mode list is exactly the sequence of the modes
`GetErpOfdmRate` gives for the rates of `GetErpOfdmRatesBpsList`, in order,
whatever modes the base class would add of its own: it has one mode per rate
and every element has modulation class ERP-OFDM.  With the 20 MHz rate list
6, 9, 12, 18, 24, 36, 48, 54 Mbps it is the list of the eight ERP-OFDM modes
in ascending rate order, of length eight. -/
theorem constructor_modeList (ofdmRatesBpsList : List (Nat × List Nat))
    (ofdmModeList : List WifiMode) (rates : List Nat)
    (hrates : GetErpOfdmRatesBpsList ofdmRatesBpsList = .ok rates) :
    (∀ modes, ErpOfdmPhy ofdmRatesBpsList ofdmModeList = .ok modes ↔
      List.Forall₂ (fun rate mode => GetErpOfdmRate rate = .ok mode) rates modes) ∧
    (∀ modes, ErpOfdmPhy ofdmRatesBpsList ofdmModeList = .ok modes →
      modes.length = rates.length ∧
      ∀ mode ∈ modes, mode.GetModulationClass = WIFI_MOD_CLASS_ERP_OFDM) ∧
    (rates = [6000000, 9000000, 12000000, 18000000, 24000000, 36000000, 48000000, 54000000] →
      ErpOfdmPhy ofdmRatesBpsList ofdmModeList = .ok
        [GetErpOfdmRate6Mbps, GetErpOfdmRate9Mbps, GetErpOfdmRate12Mbps, GetErpOfdmRate18Mbps,
         GetErpOfdmRate24Mbps, GetErpOfdmRate36Mbps, GetErpOfdmRate48Mbps, GetErpOfdmRate54Mbps] ∧
      ([GetErpOfdmRate6Mbps, GetErpOfdmRate9Mbps, GetErpOfdmRate12Mbps, GetErpOfdmRate18Mbps,
         GetErpOfdmRate24Mbps, GetErpOfdmRate36Mbps, GetErpOfdmRate48Mbps, GetErpOfdmRate54Mbps]).length = 8) := by
  refine ⟨constructor_ok_iff ofdmRatesBpsList ofdmModeList rates hrates, ?_, ?_⟩
  · intro modes hmodes
    have hall := (constructor_ok_iff ofdmRatesBpsList ofdmModeList rates hrates modes).mp hmodes
    refine ⟨hall.length_eq.symm, ?_⟩
    clear hmodes hrates
    induction hall with
    | nil =>
      intro mode hmode
      exact absurd hmode (List.not_mem_nil _)
    | cons hhead _ ih =>
      intro mode hmode
      rcases List.mem_cons.mp hmode with heq | hin
      · subst heq
        rcases GetErpOfdmRate_ok_cases hhead with k | k | k | k | k | k | k | k <;>
        · rw [k.2]
          rfl
      · exact ih mode hin
  · intro hcanon
    subst hcanon
    refine ⟨?_, rfl⟩
    rw [constructor_ok_iff ofdmRatesBpsList ofdmModeList _ hrates]
    repeat first
      | exact List.Forall₂.nil
      | refine List.Forall₂.cons rfl ?_

/-- Witness for the theorem above: the canonical 20 MHz list next to a 10 MHz
list, with a base class that would add one OFDM mode. -/
theorem constructor_modeList_witness :
    GetErpOfdmRatesBpsList [(10, [3000000]), (20, [6000000, 9000000, 12000000, 18000000, 24000000, 36000000, 48000000, 54000000])] = .ok [6000000, 9000000, 12000000, 18000000, 24000000, 36000000, 48000000, 54000000] ∧
    ErpOfdmPhy [(10, [3000000]), (20, [6000000, 9000000, 12000000, 18000000, 24000000, 36000000, 48000000, 54000000])]
        [⟨"OfdmRate6Mbps", WIFI_MOD_CLASS_OFDM, true, WIFI_CODE_RATE_1_2, 2⟩] = .ok
        [GetErpOfdmRate6Mbps, GetErpOfdmRate9Mbps, GetErpOfdmRate12Mbps, GetErpOfdmRate18Mbps,
         GetErpOfdmRate24Mbps, GetErpOfdmRate36Mbps, GetErpOfdmRate48Mbps, GetErpOfdmRate54Mbps] :=
  ⟨by decide,
    ((constructor_modeList [(10, [3000000]), (20, [6000000, 9000000, 12000000, 18000000, 24000000, 36000000, 48000000, 54000000])]
      [⟨"OfdmRate6Mbps", WIFI_MOD_CLASS_OFDM, true, WIFI_CODE_RATE_1_2, 2⟩]
      [6000000, 9000000, 12000000, 18000000, 24000000, 36000000, 48000000, 54000000] (by decide)).2.2 rfl).1⟩

/-- The error of a look-up with `at`, when there is one, is the out-of-range
exception. -/
theorem at_error_eq {κ ν : Type} [BEq κ] {table : List (κ × ν)} {key : κ} {e : PhyError}
    (h : std.map.at table key = .error e) : e = PhyError.outOfRange := by
  unfold std.map.at at h
  split at h <;> simp_all

/-- C14: `GetDataRate` and `GetPhyRate` fail (out-of-range exception of `at`)
for every name that is not one of the eight catalogue names, whatever the
other arguments and whatever the two rate formulas, which are not consulted;
for every catalogue name both look-ups succeed and both functions return a
rate. -/
theorem rate_lookup_fails_iff (CalculateDataRate : WifiCodeRate → Nat → Nat → Nat → Nat → Nat)
    (CalculatePhyRate : WifiCodeRate → Nat → Nat)
    (name : String) (channelWidth guardInterval nss : Nat) :
    (GetDataRate CalculateDataRate name channelWidth guardInterval nss
        = .error PhyError.outOfRange ↔
      name ∉ m_erpOfdmModulationLookupTable.map Prod.fst) ∧
    (GetPhyRate CalculateDataRate CalculatePhyRate name channelWidth guardInterval nss
        = .error PhyError.outOfRange ↔
      name ∉ m_erpOfdmModulationLookupTable.map Prod.fst) ∧
    ((∃ rate, GetDataRate CalculateDataRate name channelWidth guardInterval nss = .ok rate) ↔
      name ∈ m_erpOfdmModulationLookupTable.map Prod.fst) ∧
    ((∃ rate, GetPhyRate CalculateDataRate CalculatePhyRate name channelWidth guardInterval nss
        = .ok rate) ↔
      name ∈ m_erpOfdmModulationLookupTable.map Prod.fst) ∧
    (name ∈ m_erpOfdmModulationLookupTable.map Prod.fst →
      ∃ codeRate constellationSize,
        GetCodeRate name = .ok codeRate ∧ GetConstellationSize name = .ok constellationSize) ∧
    m_erpOfdmModulationLookupTable.map Prod.fst =
      ["ErpOfdmRate6Mbps", "ErpOfdmRate9Mbps", "ErpOfdmRate12Mbps", "ErpOfdmRate18Mbps",
       "ErpOfdmRate24Mbps", "ErpOfdmRate36Mbps", "ErpOfdmRate48Mbps", "ErpOfdmRate54Mbps"] := by
  have hat := at_error_iff m_erpOfdmModulationLookupTable name
  refine ⟨?_, ?_, ?_, ?_, ?_, rfl⟩ <;>
  · cases hres : std.map.at m_erpOfdmModulationLookupTable name with
    | error e =>
      have he := at_error_eq hres
      subst he
      have hnot := hat.mp hres
      simp [GetDataRate, GetPhyRate, GetCodeRate, GetConstellationSize, hres, Except.map, bind,
        Except.bind, hnot]
    | ok entry =>
      have hin : name ∈ m_erpOfdmModulationLookupTable.map Prod.fst := by
        by_contra hcon
        rw [hat.mpr hcon] at hres
        cases hres
      simp [GetDataRate, GetPhyRate, GetCodeRate, GetConstellationSize, hres, Except.map, bind,
        Except.bind, pure, Except.pure, hin]

/-- C15: for every transmission vector and station identifier,
`GetDataRateFromTxVector` is `GetDataRate` on the unique name of the mode, the
channel width, the guard interval and the stream count of the vector, with
the same failures; the station identifier does not change the result. -/
theorem GetDataRateFromTxVector_eq
    (CalculateDataRate : WifiCodeRate → Nat → Nat → Nat → Nat → Nat)
    (txVector : WifiTxVector) (staId otherStaId : Nat) :
    GetDataRateFromTxVector CalculateDataRate txVector staId =
      GetDataRate CalculateDataRate txVector.m_mode.uniqueName txVector.m_channelWidth
        txVector.m_guardInterval txVector.m_nss ∧
    GetDataRateFromTxVector CalculateDataRate txVector staId =
      GetDataRateFromTxVector CalculateDataRate txVector otherStaId ∧
    (∀ e, GetDataRateFromTxVector CalculateDataRate txVector staId = .error e ↔
      GetDataRate CalculateDataRate txVector.m_mode.uniqueName txVector.m_channelWidth
        txVector.m_guardInterval txVector.m_nss = .error e) :=
  ⟨rfl, rfl, fun _ => Iff.rfl⟩

/-- C16: `IsModeAllowed` returns true for every channel width and every stream
count. -/
theorem IsModeAllowed_true (channelWidth nss : Nat) :
    IsModeAllowed channelWidth nss = true ∧
    (∀ streams, IsModeAllowed 20 streams = true) :=
  ⟨rfl, fun _ => rfl⟩

/-- C17: `GetHeaderMode` fails on its assertion, returning no mode, for every
transmission vector whose mode has a modulation class other than ERP-OFDM,
and returns a mode, the 6 Mbps one, for every vector whose mode has class
ERP-OFDM: it fails if and only if the class differs. -/
theorem GetHeaderMode_fails_iff (txVector : WifiTxVector) :
    (GetHeaderMode txVector = .error PhyError.assertFailed ↔
      txVector.GetMode.GetModulationClass ≠ WIFI_MOD_CLASS_ERP_OFDM) ∧
    ((∃ mode, GetHeaderMode txVector = .ok mode) ↔
      txVector.GetMode.GetModulationClass = WIFI_MOD_CLASS_ERP_OFDM) ∧
    (txVector.GetMode.GetModulationClass = WIFI_MOD_CLASS_ERP_OFDM →
      GetHeaderMode txVector = .ok GetErpOfdmRate6Mbps) := by
  by_cases hclass : txVector.GetMode.GetModulationClass = WIFI_MOD_CLASS_ERP_OFDM
  · simp [GetHeaderMode, hclass]
  · simp [GetHeaderMode, hclass]

end ErpOfdmPhy

/-! ## The shape of the lookup table -/

namespace ErpOfdmPhy

open WifiCodeRate WifiModulationClass

/-- C18, as stated, fails: read in order of increasing rate, the constellation
sizes do not go from each entry to the next by staying equal or doubling.
From the 18 Mbps entry to the 24 Mbps entry the size goes from 4 to 16, and
from the 36 Mbps entry to the 48 Mbps entry from 16 to 64. -/
theorem constellation_not_doubling :
    ¬ ((tableByRate [6000000, 9000000, 12000000, 18000000, 24000000, 36000000, 48000000, 54000000]).head? = some (WIFI_CODE_RATE_1_2, 2) ∧
       ((tableByRate [6000000, 9000000, 12000000, 18000000, 24000000, 36000000, 48000000, 54000000]).map Prod.snd).getLast? = some 64 ∧
       List.Chain' (fun previous entry => entry = previous ∨ entry = 2 * previous)
         ((tableByRate [6000000, 9000000, 12000000, 18000000, 24000000, 36000000, 48000000, 54000000]).map Prod.snd) ∧
       (tableByRate [6000000, 9000000, 12000000, 18000000, 24000000, 36000000, 48000000, 54000000]).map Prod.fst =
         [WIFI_CODE_RATE_1_2, WIFI_CODE_RATE_3_4, WIFI_CODE_RATE_1_2, WIFI_CODE_RATE_3_4,
          WIFI_CODE_RATE_1_2, WIFI_CODE_RATE_3_4, WIFI_CODE_RATE_2_3, WIFI_CODE_RATE_3_4]) := by
  intro hclaim
  have hsizes : (tableByRate [6000000, 9000000, 12000000, 18000000, 24000000, 36000000, 48000000, 54000000]).map Prod.snd = [2, 2, 4, 4, 16, 16, 64, 64] := by
    decide
  have hchain := hclaim.2.2.1
  rw [hsizes] at hchain
  simp at hchain

/-- C18, amended: read in order of increasing rate (6, 9, 12, 18, 24, 36, 48,
54 Mbps), the eight constellation sizes are 2, 2, 4, 4, 16, 16, 64, 64: they
start at 2, end at 64 and never decrease, each one equal to the previous
one, twice it or four times it; the coding rates alternate 1/2, 3/4 along
that order except that the 48 Mbps entry is 2/3. -/
theorem table_by_rate :
    tableByRate [6000000, 9000000, 12000000, 18000000, 24000000, 36000000, 48000000, 54000000] =
      [(WIFI_CODE_RATE_1_2, 2), (WIFI_CODE_RATE_3_4, 2), (WIFI_CODE_RATE_1_2, 4),
       (WIFI_CODE_RATE_3_4, 4), (WIFI_CODE_RATE_1_2, 16), (WIFI_CODE_RATE_3_4, 16),
       (WIFI_CODE_RATE_2_3, 64), (WIFI_CODE_RATE_3_4, 64)] ∧
    ((tableByRate [6000000, 9000000, 12000000, 18000000, 24000000, 36000000, 48000000, 54000000]).map Prod.snd).head? = some 2 ∧
    ((tableByRate [6000000, 9000000, 12000000, 18000000, 24000000, 36000000, 48000000, 54000000]).map Prod.snd).getLast? = some 64 ∧
    List.Chain' (fun previous entry =>
        entry = previous ∨ entry = 2 * previous ∨ entry = 4 * previous)
      ((tableByRate [6000000, 9000000, 12000000, 18000000, 24000000, 36000000, 48000000, 54000000]).map Prod.snd) ∧
    List.Chain' (fun previous entry => previous ≤ entry)
      ((tableByRate [6000000, 9000000, 12000000, 18000000, 24000000, 36000000, 48000000, 54000000]).map Prod.snd) ∧
    (tableByRate [6000000, 9000000, 12000000, 18000000, 24000000, 36000000, 48000000, 54000000]).map Prod.fst =
      [WIFI_CODE_RATE_1_2, WIFI_CODE_RATE_3_4, WIFI_CODE_RATE_1_2, WIFI_CODE_RATE_3_4,
       WIFI_CODE_RATE_1_2, WIFI_CODE_RATE_3_4, WIFI_CODE_RATE_2_3, WIFI_CODE_RATE_3_4] := by
  have hsizes : (tableByRate [6000000, 9000000, 12000000, 18000000, 24000000, 36000000, 48000000, 54000000]).map Prod.snd = [2, 2, 4, 4, 16, 16, 64, 64] := by
    decide
  refine ⟨by decide, by decide, by decide, ?_, ?_, by decide⟩
  · rw [hsizes]
    simp
  · rw [hsizes]
    simp

/-- C19: the keys of the lookup table are exactly the names of the modes
`GetErpOfdmRate` returns for the eight canonical rates, in the same order.
Every table entry is the name, coding rate and constellation size of a mode
created by the accessor of a canonical rate; every mode `GetErpOfdmRate`
returns has its name in the table, stored with the coding rate and
constellation size the mode was created with; and distinct rates resolve to
modes with distinct names. -/
theorem table_matches_modes :
    m_erpOfdmModulationLookupTable.map Prod.fst =
      ([6000000, 9000000, 12000000, 18000000, 24000000, 36000000, 48000000, 54000000]).filterMap
        (fun rate => (GetErpOfdmRate rate).toOption.map WifiMode.GetUniqueName) ∧
    (∀ name codeRate constellationSize,
      (name, (codeRate, constellationSize)) ∈ m_erpOfdmModulationLookupTable →
      ∃ rate mode, rate ∈ [6000000, 9000000, 12000000, 18000000, 24000000, 36000000, 48000000, 54000000] ∧
        GetErpOfdmRate rate = .ok mode ∧ mode.GetUniqueName = name ∧
        mode.codeRate = codeRate ∧ mode.constellationSize = constellationSize) ∧
    (∀ rate mode, GetErpOfdmRate rate = .ok mode →
      mode.GetUniqueName ∈ m_erpOfdmModulationLookupTable.map Prod.fst ∧
      std.map.at m_erpOfdmModulationLookupTable mode.GetUniqueName =
        .ok (mode.codeRate, mode.constellationSize)) ∧
    (∀ rate other mode otherMode, GetErpOfdmRate rate = .ok mode →
      GetErpOfdmRate other = .ok otherMode →
      mode.GetUniqueName = otherMode.GetUniqueName → rate = other) := by
  refine ⟨by decide, ?_, ?_, ?_⟩
  · intro name codeRate constellationSize hmem
    simp only [m_erpOfdmModulationLookupTable, List.mem_cons, Prod.mk.injEq,
      List.not_mem_nil, or_false] at hmem
    rcases hmem with e | e | e | e | e | e | e | e
    · obtain ⟨hname, hcode, hsize⟩ := e
      subst hname hcode hsize
      exact ⟨6000000, _, by decide, rfl, rfl, rfl, rfl⟩
    · obtain ⟨hname, hcode, hsize⟩ := e
      subst hname hcode hsize
      exact ⟨9000000, _, by decide, rfl, rfl, rfl, rfl⟩
    · obtain ⟨hname, hcode, hsize⟩ := e
      subst hname hcode hsize
      exact ⟨12000000, _, by decide, rfl, rfl, rfl, rfl⟩
    · obtain ⟨hname, hcode, hsize⟩ := e
      subst hname hcode hsize
      exact ⟨18000000, _, by decide, rfl, rfl, rfl, rfl⟩
    · obtain ⟨hname, hcode, hsize⟩ := e
      subst hname hcode hsize
      exact ⟨24000000, _, by decide, rfl, rfl, rfl, rfl⟩
    · obtain ⟨hname, hcode, hsize⟩ := e
      subst hname hcode hsize
      exact ⟨36000000, _, by decide, rfl, rfl, rfl, rfl⟩
    · obtain ⟨hname, hcode, hsize⟩ := e
      subst hname hcode hsize
      exact ⟨48000000, _, by decide, rfl, rfl, rfl, rfl⟩
    · obtain ⟨hname, hcode, hsize⟩ := e
      subst hname hcode hsize
      exact ⟨54000000, _, by decide, rfl, rfl, rfl, rfl⟩
  · intro rate mode hmode
    rcases GetErpOfdmRate_ok_cases hmode with k | k | k | k | k | k | k | k <;>
    · rw [k.2]
      exact ⟨by decide, by decide⟩
  · intro rate other mode otherMode hmode hother hname
    rcases GetErpOfdmRate_ok_cases hmode with a | a | a | a | a | a | a | a <;>
    rcases GetErpOfdmRate_ok_cases hother with b | b | b | b | b | b | b | b <;>
    · obtain ⟨hr, hm⟩ := a
      obtain ⟨ho, hn⟩ := b
      subst hr ho hm hn
      first
        | rfl
        | exact absurd hname (by decide)

end ErpOfdmPhy

/-! ## The default branch of the rate switch and the rate list -/

namespace ErpOfdmPhy

open WifiCodeRate WifiModulationClass

/-- A canonical rate has a mode. -/
theorem GetErpOfdmRate_of_canonical {rate : Nat}
    (h : rate ∈ [6000000, 9000000, 12000000, 18000000, 24000000, 36000000, 48000000, 54000000]) :
    ∃ mode, GetErpOfdmRate rate = .ok mode := by
  simp only [List.mem_cons, List.mem_singleton, List.not_mem_nil, or_false] at h
  rcases h with e | e | e | e | e | e | e | e <;>
  · subst e
    exact ⟨_, rfl⟩

/-- Any other rate takes the default branch. -/
theorem GetErpOfdmRate_of_not_canonical {rate : Nat}
    (h : rate ∉ [6000000, 9000000, 12000000, 18000000, 24000000, 36000000, 48000000, 54000000]) :
    GetErpOfdmRate rate = .error PhyError.abortMsg := by
  unfold GetErpOfdmRate
  split <;> simp_all

/-- The loop of the constructor stops in the default branch of the switch as
soon as the list holds a rate that is not canonical. -/
theorem constructorLoop_abort (rates : List Nat)
    (hbad : ∃ rate ∈ rates, rate ∉ [6000000, 9000000, 12000000, 18000000, 24000000, 36000000, 48000000, 54000000]) :
    ∀ start : List WifiMode,
      rates.foldlM (fun modeList rate => do
        let mode ← GetErpOfdmRate rate
        pure (modeList ++ [mode])) start = .error PhyError.abortMsg := by
  induction rates with
  | nil =>
    obtain ⟨rate, hrate, _⟩ := hbad
    exact absurd hrate (List.not_mem_nil _)
  | cons rate rest ih =>
    intro start
    by_cases hcanon : rate ∈ [6000000, 9000000, 12000000, 18000000, 24000000, 36000000, 48000000, 54000000]
    · obtain ⟨mode, hmode⟩ := GetErpOfdmRate_of_canonical hcanon
      have hrest : ∃ other ∈ rest, other ∉ [6000000, 9000000, 12000000, 18000000, 24000000, 36000000, 48000000, 54000000] := by
        obtain ⟨other, hother, hnot⟩ := hbad
        rcases List.mem_cons.mp hother with heq | hin
        · subst heq
          exact absurd hcanon hnot
        · exact ⟨other, hin, hnot⟩
      rw [List.foldlM_cons, hmode]
      exact ih hrest (start ++ [mode])
    · rw [List.foldlM_cons, GetErpOfdmRate_of_not_canonical hcanon]
      rfl

end ErpOfdmPhy

namespace ModeRegistry

/-- On any state, a canonical rate resolves to a mode. -/
theorem GetErpOfdmRate_ok_of_canonical {rate : Nat}
    (h : rate ∈ [6000000, 9000000, 12000000, 18000000, 24000000, 36000000, 48000000, 54000000])
    (g : ModeRegistry) : ∃ mode g', GetErpOfdmRate rate g = .ok (mode, g') := by
  simp only [List.mem_cons, List.mem_singleton, List.not_mem_nil, or_false] at h
  rcases h with e | e | e | e | e | e | e | e <;>
  · subst e
    exact ⟨_, _, rfl⟩

/-- On any state, any other rate takes the default branch. -/
theorem GetErpOfdmRate_abort_of_not_canonical {rate : Nat}
    (h : rate ∉ [6000000, 9000000, 12000000, 18000000, 24000000, 36000000, 48000000, 54000000])
    (g : ModeRegistry) : GetErpOfdmRate rate g = .error PhyError.abortMsg := by
  unfold GetErpOfdmRate
  split <;> simp_all

/-- The loop of `InitializeModes` completes on a list of canonical rates. -/
theorem initLoop_ok (rates : List Nat)
    (hall : ∀ rate ∈ rates, rate ∈ [6000000, 9000000, 12000000, 18000000, 24000000, 36000000, 48000000, 54000000]) :
    ∀ g : ModeRegistry, ∃ g',
      rates.foldlM (fun state rate => (GetErpOfdmRate rate state).map (fun r => r.2)) g
        = .ok g' := by
  induction rates with
  | nil =>
    intro g
    exact ⟨g, rfl⟩
  | cons rate rest ih =>
    intro g
    obtain ⟨mode, g1, hcall⟩ :=
      GetErpOfdmRate_ok_of_canonical (hall rate (List.mem_cons_self rate rest)) g
    obtain ⟨g2, hrest⟩ :=
      ih (fun other hother => hall other (List.mem_cons_of_mem rate hother)) g1
    refine ⟨g2, ?_⟩
    simp only [List.foldlM_cons, hcall, Except.map, bind, Except.bind]
    exact hrest

/-- The loop of `InitializeModes` stops in the default branch of the switch as
soon as the list holds a rate that is not canonical. -/
theorem initLoop_abort (rates : List Nat)
    (hbad : ∃ rate ∈ rates, rate ∉ [6000000, 9000000, 12000000, 18000000, 24000000, 36000000, 48000000, 54000000]) :
    ∀ g : ModeRegistry,
      rates.foldlM (fun state rate => (GetErpOfdmRate rate state).map (fun r => r.2)) g
        = .error PhyError.abortMsg := by
  induction rates with
  | nil =>
    obtain ⟨rate, hrate, _⟩ := hbad
    exact absurd hrate (List.not_mem_nil _)
  | cons rate rest ih =>
    intro g
    by_cases hcanon : rate ∈ [6000000, 9000000, 12000000, 18000000, 24000000, 36000000, 48000000, 54000000]
    · obtain ⟨mode, g1, hcall⟩ := GetErpOfdmRate_ok_of_canonical hcanon g
      have hrest : ∃ other ∈ rest, other ∉ [6000000, 9000000, 12000000, 18000000, 24000000, 36000000, 48000000, 54000000] := by
        obtain ⟨other, hother, hnot⟩ := hbad
        rcases List.mem_cons.mp hother with heq | hin
        · subst heq
          exact absurd hcanon hnot
        · exact ⟨other, hin, hnot⟩
      simp only [List.foldlM_cons, hcall, Except.map, bind, Except.bind]
      exact ih hrest g1
    · simp only [List.foldlM_cons, GetErpOfdmRate_abort_of_not_canonical hcanon g, Except.map,
        bind, Except.bind]

end ModeRegistry

namespace ErpOfdmPhy

open WifiCodeRate WifiModulationClass

/-- A list of canonical rates has its list of modes. -/
theorem modes_of_canonical (rates : List Nat)
    (hall : ∀ rate ∈ rates, rate ∈ [6000000, 9000000, 12000000, 18000000, 24000000, 36000000, 48000000, 54000000]) :
    ∃ modes, List.Forall₂ (fun rate mode => GetErpOfdmRate rate = .ok mode) rates modes := by
  induction rates with
  | nil => exact ⟨[], List.Forall₂.nil⟩
  | cons rate rest ih =>
    obtain ⟨mode, hmode⟩ := GetErpOfdmRate_of_canonical (hall rate (List.mem_cons_self rate rest))
    obtain ⟨modes, hmodes⟩ :=
      ih (fun other hother => hall other (List.mem_cons_of_mem rate hother))
    exact ⟨mode :: modes, List.Forall₂.cons hmode hmodes⟩

/-- C20: the default branch of `GetErpOfdmRate` is out of reach of the
constructor and of `InitializeModes` when the 20 MHz rate list of the base
class exists and holds canonical rates only: every call of `GetErpOfdmRate`
made while iterating the list returns a mode, and both the construction and
`InitializeModes`, from any state, complete.  Conversely, when that list
holds any other value, both stop in the default branch. -/
theorem abort_branch_unreachable (ofdmRatesBpsList : List (Nat × List Nat))
    (ofdmModeList : List WifiMode) (rates : List Nat)
    (hrates : GetErpOfdmRatesBpsList ofdmRatesBpsList = .ok rates) :
    ((∀ rate ∈ rates, rate ∈ [6000000, 9000000, 12000000, 18000000, 24000000, 36000000, 48000000, 54000000]) →
      (∀ rate ∈ rates, ∃ mode, GetErpOfdmRate rate = .ok mode) ∧
      (∀ rate ∈ rates, ∀ g : ModeRegistry, ∃ mode g',
        ModeRegistry.GetErpOfdmRate rate g = .ok (mode, g')) ∧
      (∃ modes, ErpOfdmPhy ofdmRatesBpsList ofdmModeList = .ok modes) ∧
      (∀ g : ModeRegistry, ∃ g', ModeRegistry.InitializeModes ofdmRatesBpsList g = .ok g')) ∧
    ((∃ rate ∈ rates, rate ∉ [6000000, 9000000, 12000000, 18000000, 24000000, 36000000, 48000000, 54000000]) →
      ErpOfdmPhy ofdmRatesBpsList ofdmModeList = .error PhyError.abortMsg ∧
      (∀ g : ModeRegistry,
        ModeRegistry.InitializeModes ofdmRatesBpsList g = .error PhyError.abortMsg)) := by
  refine ⟨?_, ?_⟩
  · intro hall
    refine ⟨fun rate hrate => GetErpOfdmRate_of_canonical (hall rate hrate),
      fun rate hrate g => ModeRegistry.GetErpOfdmRate_ok_of_canonical (hall rate hrate) g, ?_, ?_⟩
    · obtain ⟨modes, hmodes⟩ := modes_of_canonical rates hall
      exact ⟨modes, (constructor_ok_iff ofdmRatesBpsList ofdmModeList rates hrates modes).mpr
        hmodes⟩
    · intro g
      obtain ⟨g1, hloop⟩ := ModeRegistry.initLoop_ok rates hall g
      refine ⟨g1, ?_⟩
      simp only [ModeRegistry.InitializeModes, hrates, bind, Except.bind]
      exact hloop
  · intro hbad
    refine ⟨?_, ?_⟩
    · have hloop := constructorLoop_abort rates hbad (OfdmPhy.OfdmPhy ofdmModeList false)
      simp only [ErpOfdmPhy, hrates]
      exact hloop
    · intro g
      simp only [ModeRegistry.InitializeModes, hrates, bind, Except.bind]
      exact ModeRegistry.initLoop_abort rates hbad g

/-- Witness for the theorem above: with the canonical 20 MHz list the
construction and `InitializeModes` from the state at process start complete;
with the list 6 Mbps, 7 bit/s both stop in the default branch. -/
theorem abort_branch_unreachable_witness :
    (GetErpOfdmRatesBpsList [(20, [6000000, 9000000, 12000000, 18000000, 24000000, 36000000, 48000000, 54000000])] = .ok [6000000, 9000000, 12000000, 18000000, 24000000, 36000000, 48000000, 54000000] ∧
      (∀ rate ∈ [6000000, 9000000, 12000000, 18000000, 24000000, 36000000, 48000000, 54000000], rate ∈ [6000000, 9000000, 12000000, 18000000, 24000000, 36000000, 48000000, 54000000]) ∧
      (∃ modes, ErpOfdmPhy [(20, [6000000, 9000000, 12000000, 18000000, 24000000, 36000000, 48000000, 54000000])] [] = .ok modes) ∧
      (∀ g : ModeRegistry, ∃ g', ModeRegistry.InitializeModes [(20, [6000000, 9000000, 12000000, 18000000, 24000000, 36000000, 48000000, 54000000])] g = .ok g')) ∧
    (GetErpOfdmRatesBpsList [(20, [6000000, 7])] = .ok [6000000, 7] ∧
      (∃ rate ∈ [6000000, 7], rate ∉ [6000000, 9000000, 12000000, 18000000, 24000000, 36000000, 48000000, 54000000]) ∧
      ErpOfdmPhy [(20, [6000000, 7])] [] = .error PhyError.abortMsg ∧
      (∀ g : ModeRegistry,
        ModeRegistry.InitializeModes [(20, [6000000, 7])] g = .error PhyError.abortMsg)) :=
  ⟨⟨rfl, fun _ h => h,
      ((abort_branch_unreachable [(20, [6000000, 9000000, 12000000, 18000000, 24000000, 36000000, 48000000, 54000000])] [] [6000000, 9000000, 12000000, 18000000, 24000000, 36000000, 48000000, 54000000] rfl).1 (fun _ h => h)).2.2.1,
      ((abort_branch_unreachable [(20, [6000000, 9000000, 12000000, 18000000, 24000000, 36000000, 48000000, 54000000])] [] [6000000, 9000000, 12000000, 18000000, 24000000, 36000000, 48000000, 54000000] rfl).1 (fun _ h => h)).2.2.2⟩,
    ⟨rfl, ⟨7, by decide, by decide⟩,
      ((abort_branch_unreachable [(20, [6000000, 7])] [] [6000000, 7] rfl).2
        ⟨7, by decide, by decide⟩).1,
      ((abort_branch_unreachable [(20, [6000000, 7])] [] [6000000, 7] rfl).2
        ⟨7, by decide, by decide⟩).2⟩⟩

end ErpOfdmPhy

end ns3
